import Mathlib

/-!
Shallow embedding of the physics engine core (Object.h, Collider.h, Constraint.h,
PhysicsWorld.h/.cpp) and proofs about it.

Modelling conventions:
* `float` arithmetic is modelled exactly by `ℚ` (exact arithmetic); `std::sqrt` is
  modelled by an uninterpreted parameter `sqrtf : ℚ → ℚ` threaded through every
  function that calls it, so theorems quantified over `sqrtf` hold for every
  interpretation of the square root.
* `sf::Vector2f` becomes `Vec2`, with SFML's componentwise `+`, `-`, vector-by-scalar
  `*` and `/`.
* C++ object pointers become natural-number addresses into a heap `ℕ → Object`;
  the `PhysicsWorld` body list `m_objects` is the list of registered addresses and
  `m_constraints` is a list of (address, constraint) pairs, the address playing the
  role of the `unique_ptr` identity used by `RemoveConstraint`.
* Each collision / constraint routine reads the bodies it touches from the heap at
  call time and writes its results back, mirroring the sequential in-place mutation
  of `PhysicsWorld::Step` (bodies registered at distinct addresses, as created by
  the collaborator).
-/

/-- Model of `sf::Vector2f` (exact arithmetic). -/
structure Vec2 where
  x : ℚ
  y : ℚ
deriving DecidableEq

instance : Add Vec2 := ⟨fun a b => ⟨a.x + b.x, a.y + b.y⟩⟩

instance : Sub Vec2 := ⟨fun a b => ⟨a.x - b.x, a.y - b.y⟩⟩

instance : Neg Vec2 := ⟨fun a => ⟨-a.x, -a.y⟩⟩

/-- SFML vector-by-scalar multiplication `v * s`. -/
instance : HMul Vec2 ℚ Vec2 := ⟨fun a s => ⟨a.x * s, a.y * s⟩⟩

/-- SFML vector-by-scalar division `v / s`. -/
instance : HDiv Vec2 ℚ Vec2 := ⟨fun a s => ⟨a.x / s, a.y / s⟩⟩

/-- Dot product, written out as `a.x * b.x + a.y * b.y` in the source. -/
def Vec2.dot (a b : Vec2) : ℚ := a.x * b.x + a.y * b.y

/-- The zero vector `{0.f, 0.f}`. -/
def Vec2.zero : Vec2 := ⟨0, 0⟩

/-- Collider.h: tagged shape attached to a body (`CircleCollider` stores a radius,
`AABBCollider` stores half-extents). -/
inductive Collider where
  | circle (radius : ℚ)
  | aabb (halfExtents : Vec2)
deriving DecidableEq

/-- Collider.h line 86: `MakeCircleCollider(radius)`. -/
def MakeCircleCollider (radius : ℚ) : Collider := .circle radius

/-- Collider.h lines 81–82: `AABBCollider(width, height)` stores
`halfExtents = {width * 0.5f, height * 0.5f}` (via `MakeAABBCollider`). -/
def MakeAABBCollider (width height : ℚ) : Collider :=
  .aabb ⟨width * (1/2), height * (1/2)⟩

/-- Collider.h lines 78–79: `AABBCollider(sf::Vector2f size)` stores
`halfExtents = size * 0.5f`. -/
def MakeAABBColliderVec (size : Vec2) : Collider :=
  .aabb (size * (1/2 : ℚ))

/-- Object.h: a point-mass body with Verlet dual-position state. -/
structure Object where
  position : Vec2
  oldPosition : Vec2
  acceleration : Vec2
  mass : ℚ := 1
  bounciness : ℚ := 7/10
  isStatic : Bool := false
  collider : Option Collider := none
deriving DecidableEq

/-- Object.h lines 21–24: `InitVerlet` sets `oldPosition = position`,
`acceleration = {0,0}`. -/
def Object.InitVerlet (o : Object) : Object :=
  {o with oldPosition := o.position, acceleration := Vec2.zero}

/-- Object.h lines 27–30: `GetVelocity(dt)` returns `{0,0}` when `dt <= 0`, else
`(position - oldPosition) / dt`. -/
def Object.GetVelocity (o : Object) (dt : ℚ) : Vec2 :=
  if dt ≤ 0 then Vec2.zero else (o.position - o.oldPosition) / dt

/-- Object.h lines 33–35: `SetVelocity(vel, dt)` sets
`oldPosition = position - vel * dt`. -/
def Object.SetVelocity (o : Object) (vel : Vec2) (dt : ℚ) : Object :=
  {o with oldPosition := o.position - vel * dt}

/-- Object.h lines 38–40: `SetCircleCollider(radius)`. -/
def Object.SetCircleCollider (o : Object) (radius : ℚ) : Object :=
  {o with collider := some (MakeCircleCollider radius)}

/-- Object.h lines 42–44: `SetAABBCollider(width, height)`. -/
def Object.SetAABBCollider (o : Object) (width height : ℚ) : Object :=
  {o with collider := some (MakeAABBCollider width height)}

/-- Object.h lines 46–48: `SetAABBCollider(sf::Vector2f size)`. -/
def Object.SetAABBColliderVec (o : Object) (size : Vec2) : Object :=
  {o with collider := some (MakeAABBColliderVec size)}

/-- Object.h lines 51–56: `GetCircleCollider` returns the radius when the collider
is a circle, null (`none`) otherwise. -/
def Object.GetCircleCollider (o : Object) : Option ℚ :=
  match o.collider with
  | some (.circle r) => some r
  | _ => none

/-- Object.h lines 58–63: `GetAABBCollider` returns the half-extents when the
collider is a box, null (`none`) otherwise. -/
def Object.GetAABBCollider (o : Object) : Option Vec2 :=
  match o.collider with
  | some (.aabb he) => some he
  | _ => none

/-- Constraint.h lines 19–23: the three constraint variants.  Bodies are referenced
by heap address; the parameters mirror the C++ fields. -/
inductive Constraint where
  | distance (a b : ℕ) (restLength stiffness : ℚ)
  | spring (a b : ℕ) (restLength stiffness damping : ℚ)
  | pin (obj : ℕ) (anchor : Vec2)
deriving DecidableEq

/-- Constraint.h lines 183–185: `PinConstraint::SetAnchor(newPos)` replaces the
anchor.  The method exists only on the pin variant; other variants are unchanged. -/
def Constraint.SetAnchor (c : Constraint) (newPos : Vec2) : Constraint :=
  match c with
  | .pin i _ => .pin i newPos
  | c => c

/-- Constraint.h lines 66–92: `DistanceConstraint::Solve` acting on the two
referenced bodies (returned as the updated pair). -/
def distanceSolve (sqrtf : ℚ → ℚ) (restLength stiffness : ℚ) (objA objB : Object) :
    Object × Object :=
  let diff := objB.position - objA.position
  let currentLength := sqrtf (Vec2.dot diff diff)
  if currentLength < 1/10000 then (objA, objB)
  else
    let error := currentLength - restLength
    let direction := diff / currentLength
    let correction := direction * (error * stiffness)
    if objA.isStatic then
      (objA, {objB with position := objB.position - correction})
    else if objB.isStatic then
      ({objA with position := objA.position + correction}, objB)
    else
      ({objA with position := objA.position + correction * (1/2 : ℚ)},
       {objB with position := objB.position - correction * (1/2 : ℚ)})

/-- Constraint.h lines 124–153: `SpringConstraint::Solve`. -/
def springSolve (sqrtf : ℚ → ℚ) (restLength stiffness damping : ℚ)
    (objA objB : Object) : Object × Object :=
  let diff := objB.position - objA.position
  let currentLength := sqrtf (Vec2.dot diff diff)
  if currentLength < 1/10000 then (objA, objB)
  else
    let displacement := currentLength - restLength
    let direction := diff / currentLength
    let velA := objA.position - objA.oldPosition
    let velB := objB.position - objB.oldPosition
    let relativeVel := velB - velA
    let dampingForce := (Vec2.dot relativeVel direction) * damping
    let correction := direction * (displacement * stiffness + dampingForce)
    if objA.isStatic then
      (objA, {objB with position := objB.position - correction})
    else if objB.isStatic then
      ({objA with position := objA.position + correction}, objB)
    else
      ({objA with position := objA.position + correction * (1/2 : ℚ)},
       {objB with position := objB.position - correction * (1/2 : ℚ)})

/-- Constraint.h lines 177–180: `PinConstraint::Solve` forces
`obj->position = anchor`. -/
def pinSolve (anchor : Vec2) (o : Object) : Object :=
  {o with position := anchor}

/-- Heap update at one address (pointer write). -/
def writeHeap (h : ℕ → Object) (i : ℕ) (v : Object) : ℕ → Object :=
  fun j => if j = i then v else h j

/-- Dispatch of `Constraint::Solve` on the heap: read the referenced bodies, run
the variant's solver, write the results back. -/
def solveConstraint (sqrtf : ℚ → ℚ) (h : ℕ → Object) : Constraint → (ℕ → Object)
  | .distance a b rl st =>
      let r := distanceSolve sqrtf rl st (h a) (h b)
      writeHeap (writeHeap h a r.1) b r.2
  | .spring a b rl st dp =>
      let r := springSolve sqrtf rl st dp (h a) (h b)
      writeHeap (writeHeap h a r.1) b r.2
  | .pin i anchor => writeHeap h i (pinSolve anchor (h i))

/-- PhysicsWorld.h lines 10–44: the world state.  `heap` is the pointer store;
`objects` is `m_objects` (registered addresses); `constraints` is `m_constraints`
as (identity, value) pairs. -/
structure World where
  heap : ℕ → Object
  objects : List ℕ
  constraints : List (ℕ × Constraint)
  gravity : Vec2 := ⟨0, 1000⟩
  constraintIterations : ℕ := 4

/-- PhysicsWorld.cpp lines 9–11: `AddObject`. -/
def World.AddObject (w : World) (i : ℕ) : World :=
  {w with objects := w.objects ++ [i]}

/-- PhysicsWorld.cpp lines 13–15: `RemoveObject` erases every occurrence of the
given pointer from `m_objects` (erase-remove idiom), keeping the rest in order. -/
def World.RemoveObject (w : World) (i : ℕ) : World :=
  {w with objects := w.objects.filter (fun j => j != i)}

/-- PhysicsWorld.cpp lines 19–22: `AddConstraint` appends an owned constraint. -/
def World.AddConstraint (w : World) (cid : ℕ) (c : Constraint) : World :=
  {w with constraints := w.constraints ++ [(cid, c)]}

/-- PhysicsWorld.cpp lines 24–32: `RemoveConstraint` erases by pointer identity
(erase/remove_if on `c.get() == constraint`). -/
def World.RemoveConstraint (w : World) (cid : ℕ) : World :=
  {w with constraints := w.constraints.filter (fun c => c.1 != cid)}

/-- One pass of PhysicsWorld.cpp lines 65–67: every constraint's `Solve`, in
insertion order, on the current heap. -/
def solveConstraintsOnce (sqrtf : ℚ → ℚ) (cs : List (ℕ × Constraint)) (h : ℕ → Object) :
    ℕ → Object :=
  cs.foldl (fun h c => solveConstraint sqrtf h c.2) h

/-- PhysicsWorld.cpp lines 63–69: `SolveConstraints` runs every constraint's
`Solve`, in insertion order, `m_constraintIterations` times (Gauss-Seidel). -/
def World.SolveAllConstraints (sqrtf : ℚ → ℚ) (w : World) : World :=
  {w with heap := (solveConstraintsOnce sqrtf w.constraints)^[w.constraintIterations] w.heap}

/-- PhysicsWorld.cpp lines 74–77: the gravity loop body — static bodies are
skipped, non-static bodies get `acceleration = m_gravity`. -/
def objGravity (gravity : Vec2) (o : Object) : Object :=
  if o.isStatic then o else {o with acceleration := gravity}

/-- PhysicsWorld.cpp lines 80–89: the Verlet integration loop body — static bodies
are skipped; otherwise `velocity = position - oldPosition`,
`position = position + velocity + acceleration * dt * dt`, and `oldPosition`
becomes the saved pre-update position. -/
def objIntegrate (dt : ℚ) (o : Object) : Object :=
  if o.isStatic then o
  else
    let velocity := o.position - o.oldPosition
    {o with
      position := o.position + velocity + o.acceleration * dt * dt,
      oldPosition := o.position}

/-- A per-body loop over the registered addresses (each iteration reads the body
and writes the transformed body back). -/
def mapHeap (f : Object → Object) (ids : List ℕ) (h : ℕ → Object) : ℕ → Object :=
  ids.foldl (fun h i => writeHeap h i (f (h i))) h

/-- PhysicsWorld.cpp lines 73–77: phase 1 of `Step` (gravity). -/
def gravityPhase (w : World) : World :=
  {w with heap := mapHeap (objGravity w.gravity) w.objects w.heap}

/-- PhysicsWorld.cpp lines 79–89: phase 2 of `Step` (Verlet integration). -/
def integratePhase (dt : ℚ) (w : World) : World :=
  {w with heap := mapHeap (objIntegrate dt) w.objects w.heap}

/-- `std::clamp(v, lo, hi)`. -/
def clampQ (v lo hi : ℚ) : ℚ :=
  if v < lo then lo else if hi < v then hi else v

/-- PhysicsWorld.cpp lines 136–147: circle-circle contact normal and penetration
(the degenerate branch fires when `distance = sqrtf distSq < 0.0001f`). -/
def ccNormalPen (sqrtf : ℚ → ℚ) (diff : Vec2) (distSq radiusSum : ℚ) : Vec2 × ℚ :=
  let distance := sqrtf distSq
  if distance < 1/10000 then (⟨1, 0⟩, radiusSum)
  else (diff / distance, radiusSum - distance)

/-- PhysicsWorld.cpp lines 153–162: circle-circle positional correction — the
correction vector is `normal * (penetration * 0.5f)`, subtracted from A and added
to B, on both `position` and `oldPosition`, skipping static bodies. -/
def ccCorrection (normal : Vec2) (penetration : ℚ) (objA objB : Object) :
    Object × Object :=
  let correction := normal * (penetration * (1/2 : ℚ))
  (if objA.isStatic then objA
   else {objA with
          position := objA.position - correction,
          oldPosition := objA.oldPosition - correction},
   if objB.isStatic then objB
   else {objB with
          position := objB.position + correction,
          oldPosition := objB.oldPosition + correction})

/-- PhysicsWorld.cpp lines 164–176: circle-circle bounce — only `oldPosition` is
adjusted, only when the bodies approach (`relVelAlongNormal > 0`), with fixed
`bounceStrength = 0.5f`. -/
def ccBounce (normal velA velB : Vec2) (objA objB : Object) : Object × Object :=
  let bounceStrength : ℚ := 1/2
  let relVel := velA - velB
  let relVelAlongNormal := Vec2.dot relVel normal
  if 0 < relVelAlongNormal then
    let impulse := normal * (relVelAlongNormal * (1 + bounceStrength) * (1/2 : ℚ))
    (if objA.isStatic then objA
     else {objA with oldPosition := objA.oldPosition + impulse},
     if objB.isStatic then objB
     else {objB with oldPosition := objB.oldPosition - impulse})
  else (objA, objB)

/-- PhysicsWorld.cpp lines 127–178: `ResolveCircleCircle`. -/
def ResolveCircleCircle (sqrtf : ℚ → ℚ) (objA objB : Object) : Object × Object :=
  match objA.GetCircleCollider, objB.GetCircleCollider with
  | some rA, some rB =>
    let diff := objB.position - objA.position
    let distSq := Vec2.dot diff diff
    let radiusSum := rA + rB
    if distSq < radiusSum * radiusSum then
      let np := ccNormalPen sqrtf diff distSq radiusSum
      let velA := objA.position - objA.oldPosition
      let velB := objB.position - objB.oldPosition
      let c := ccCorrection np.1 np.2 objA objB
      ccBounce np.1 velA velB c.1 c.2
    else (objA, objB)
  | _, _ => (objA, objB)

/-- PhysicsWorld.cpp lines 188–190: closest point of the box to the circle center
(per-axis clamp to the box extents). -/
def cabClosestPoint (circlePos boxPos he : Vec2) : Vec2 :=
  ⟨clampQ circlePos.x (boxPos - he).x (boxPos + he).x,
   clampQ circlePos.y (boxPos - he).y (boxPos + he).y⟩

/-- PhysicsWorld.cpp lines 197–215: circle-box contact normal and penetration;
the degenerate branch (circle center inside the box, `distance < 0.0001f`) picks
the axis of least overlap, signed away from the box center. -/
def cabNormalPen (sqrtf : ℚ → ℚ) (diff : Vec2) (distSq : ℚ)
    (circlePos boxPos : Vec2) (radius : ℚ) (he : Vec2) : Vec2 × ℚ :=
  let distance := sqrtf distSq
  if distance < 1/10000 then
    let overlapX := he.x - |circlePos.x - boxPos.x|
    let overlapY := he.y - |circlePos.y - boxPos.y|
    if overlapX < overlapY then
      (⟨if circlePos.x < boxPos.x then -1 else 1, 0⟩, overlapX + radius)
    else
      (⟨0, if circlePos.y < boxPos.y then -1 else 1⟩, overlapY + radius)
  else (diff / distance, radius - distance)

/-- PhysicsWorld.cpp lines 221–230: circle-box positional correction — the
correction vector is `normal * penetration` (the full magnitude, not halved),
added to the circle and subtracted from the box, on both `position` and
`oldPosition`, skipping static bodies. -/
def cabCorrection (normal : Vec2) (penetration : ℚ) (circle box : Object) :
    Object × Object :=
  let correction := normal * penetration
  (if circle.isStatic then circle
   else {circle with
          position := circle.position + correction,
          oldPosition := circle.oldPosition + correction},
   if box.isStatic then box
   else {box with
          position := box.position - correction,
          oldPosition := box.oldPosition - correction})

/-- PhysicsWorld.cpp lines 232–251: circle-box bounce — adjusts only the circle's
`oldPosition`, only when the circle moves toward the surface, reflecting the
normal velocity scaled by the circle's `bounciness` and damping the tangential
velocity by `0.98f`. -/
def cabBounce (normal vel : Vec2) (velAlongNormal : ℚ) (circle : Object) : Object :=
  if !circle.isStatic && velAlongNormal < 0 then
    let tangent : Vec2 := ⟨-normal.y, normal.x⟩
    let velAlongTangent := Vec2.dot vel tangent
    let newNormalVel := -velAlongNormal * circle.bounciness
    let newTangentVel := velAlongTangent * (49/50)
    let oldNormalComp := normal * velAlongNormal
    let oldTangentComp := tangent * velAlongTangent
    let newNormalComp := normal * newNormalVel
    let newTangentComp := tangent * newTangentVel
    let velChange := (newNormalComp + newTangentComp) - (oldNormalComp + oldTangentComp)
    {circle with oldPosition := circle.oldPosition - velChange}
  else circle

/-- PhysicsWorld.cpp lines 180–253: `ResolveCircleAABB` (circle first, box second). -/
def ResolveCircleAABB (sqrtf : ℚ → ℚ) (circle box : Object) : Object × Object :=
  match circle.GetCircleCollider, box.GetAABBCollider with
  | some radius, some he =>
    let closestPoint := cabClosestPoint circle.position box.position he
    let diff := circle.position - closestPoint
    let distSq := Vec2.dot diff diff
    if distSq < radius * radius then
      let np := cabNormalPen sqrtf diff distSq circle.position box.position radius he
      let vel := circle.position - circle.oldPosition
      let velAlongNormal := Vec2.dot vel np.1
      let c := cabCorrection np.1 np.2 circle box
      (cabBounce np.1 vel velAlongNormal c.1, c.2)
    else (circle, box)
  | _, _ => (circle, box)

/-- PhysicsWorld.cpp lines 268–280: box-box axis-of-least-overlap normal and
penetration (normal signed by center ordering). -/
def bbNormalPen (aPos bPos : Vec2) (overlapX overlapY : ℚ) : Vec2 × ℚ :=
  if overlapX < overlapY then
    (if aPos.x < bPos.x then (⟨-1, 0⟩, overlapX) else (⟨1, 0⟩, overlapX))
  else
    (if aPos.y < bPos.y then (⟨0, -1⟩, overlapY) else (⟨0, 1⟩, overlapY))

/-- PhysicsWorld.cpp lines 286–295: box-box positional correction — the
correction vector is `normal * (penetration * 0.5f)`, added to A and subtracted
from B, on both `position` and `oldPosition`, skipping static bodies. -/
def bbCorrection (normal : Vec2) (penetration : ℚ) (objA objB : Object) :
    Object × Object :=
  let correction := normal * (penetration * (1/2 : ℚ))
  (if objA.isStatic then objA
   else {objA with
          position := objA.position + correction,
          oldPosition := objA.oldPosition + correction},
   if objB.isStatic then objB
   else {objB with
          position := objB.position - correction,
          oldPosition := objB.oldPosition - correction})

/-- PhysicsWorld.cpp lines 297–307: box-box bounce — only `oldPosition` moves,
only when approaching (`relVelAlongNormal < 0`), fixed `bounceStrength = 0.5f`. -/
def bbBounce (normal velA velB : Vec2) (objA objB : Object) : Object × Object :=
  let bounceStrength : ℚ := 1/2
  let relVel := velA - velB
  let relVelAlongNormal := Vec2.dot relVel normal
  if relVelAlongNormal < 0 then
    let impulse := normal * (-relVelAlongNormal * (1 + bounceStrength) * (1/2 : ℚ))
    (if objA.isStatic then objA
     else {objA with oldPosition := objA.oldPosition - impulse},
     if objB.isStatic then objB
     else {objB with oldPosition := objB.oldPosition + impulse})
  else (objA, objB)

/-- PhysicsWorld.cpp lines 255–308: `ResolveAABBAABB`. -/
def ResolveAABBAABB (objA objB : Object) : Object × Object :=
  match objA.GetAABBCollider, objB.GetAABBCollider with
  | some heA, some heB =>
    let aMin := objA.position - heA
    let aMax := objA.position + heA
    let bMin := objB.position - heB
    let bMax := objB.position + heB
    if aMax.x < bMin.x ∨ bMax.x < aMin.x then (objA, objB)
    else if aMax.y < bMin.y ∨ bMax.y < aMin.y then (objA, objB)
    else
      let overlapX := min (aMax.x - bMin.x) (bMax.x - aMin.x)
      let overlapY := min (aMax.y - bMin.y) (bMax.y - aMin.y)
      let np := bbNormalPen objA.position objB.position overlapX overlapY
      let velA := objA.position - objA.oldPosition
      let velB := objB.position - objB.oldPosition
      let c := bbCorrection np.1 np.2 objA objB
      bbBounce np.1 velA velB c.1 c.2
  | _, _ => (objA, objB)

/-- PhysicsWorld.cpp lines 109–125: `ResolveCollision` dispatch by collider type;
the box-circle case swaps the operands so the circle is first. -/
def ResolveCollision (sqrtf : ℚ → ℚ) (objA objB : Object) : Object × Object :=
  match objA.collider, objB.collider with
  | some (.circle _), some (.circle _) => ResolveCircleCircle sqrtf objA objB
  | some (.circle _), some (.aabb _) => ResolveCircleAABB sqrtf objA objB
  | some (.aabb _), some (.circle _) =>
      let r := ResolveCircleAABB sqrtf objB objA
      (r.2, r.1)
  | some (.aabb _), some (.aabb _) => ResolveAABBAABB objA objB
  | _, _ => (objA, objB)

/-- All position-ordered pairs (i before j) of a list, as enumerated by the
double loop of PhysicsWorld.cpp lines 95–105. -/
def allPairs : List ℕ → List (ℕ × ℕ)
  | [] => []
  | i :: rest => rest.map (fun j => (i, j)) ++ allPairs rest

/-- PhysicsWorld.cpp lines 97–103: one iteration of the collision double loop —
skip if both bodies are static or either lacks a collider, else resolve and write
both bodies back. -/
def collidePair (sqrtf : ℚ → ℚ) (h : ℕ → Object) (p : ℕ × ℕ) : ℕ → Object :=
  if (h p.1).isStatic && (h p.2).isStatic then h
  else if (h p.1).collider.isNone || (h p.2).collider.isNone then h
  else
    let r := ResolveCollision sqrtf (h p.1) (h p.2)
    writeHeap (writeHeap h p.1 r.1) p.2 r.2

/-- PhysicsWorld.cpp lines 94–105: phase 4 of `Step` (collision detection and
resolution over all pairs). -/
def collisionPhase (sqrtf : ℚ → ℚ) (w : World) : World :=
  {w with heap := (allPairs w.objects).foldl (collidePair sqrtf) w.heap}

/-- PhysicsWorld.cpp lines 72–106: `Step(dt)` = gravity, then Verlet integration,
then constraint relaxation, then collision resolution. -/
def stepWorld (sqrtf : ℚ → ℚ) (dt : ℚ) (w : World) : World :=
  collisionPhase sqrtf (World.SolveAllConstraints sqrtf (integratePhase dt (gravityPhase w)))

/-- A constraint configuration under which the engine really does keep static
bodies fixed: the pin targets a non-static body, and a distance / spring
constraint does not link two static bodies (Constraint.h lines 83–91 move `objB`
whenever `objA` is static, even if `objB` is static too). -/
def safeConstraint (h : ℕ → Object) : Constraint → Bool
  | .pin i _ => !(h i).isStatic
  | .distance a b _ _ => !((h a).isStatic && (h b).isStatic)
  | .spring a b _ _ _ => !((h a).isStatic && (h b).isStatic)

/-- Erase the one field `Step` never reads: replace `mass` by its default. -/
def stripMass (o : Object) : Object := {o with mass := 1}

/-- Heap-wide mass erasure. -/
def stripHeap (h : ℕ → Object) : ℕ → Object := fun i => stripMass (h i)

/-- World-wide mass erasure (only the heap carries masses). -/
def stripWorld (w : World) : World := {w with heap := stripHeap w.heap}

/-- The `currentLength` computed by `DistanceConstraint::Solve`
(Constraint.h lines 67–68): the square root of the squared separation. -/
def distCurrentLength (sqrtf : ℚ → ℚ) (objA objB : Object) : ℚ :=
  sqrtf (Vec2.dot (objB.position - objA.position) (objB.position - objA.position))

/-- The correction vector of `DistanceConstraint::Solve` (Constraint.h lines
73–79): unit direction times `error * stiffness`. -/
def distCorrection (sqrtf : ℚ → ℚ) (restLength stiffness : ℚ) (objA objB : Object) :
    Vec2 :=
  let diff := objB.position - objA.position
  let currentLength := distCurrentLength sqrtf objA objB
  (diff / currentLength) * ((currentLength - restLength) * stiffness)

/-- The (normal, penetration) pair computed by `ResolveCircleCircle` for a
colliding pair. -/
def ccContact (sqrtf : ℚ → ℚ) (objA objB : Object) (rA rB : ℚ) : Vec2 × ℚ :=
  let diff := objB.position - objA.position
  ccNormalPen sqrtf diff (Vec2.dot diff diff) (rA + rB)

/-- The (normal, penetration) pair computed by `ResolveCircleAABB` for a
colliding pair. -/
def cabContact (sqrtf : ℚ → ℚ) (circle box : Object) (radius : ℚ) (he : Vec2) :
    Vec2 × ℚ :=
  let diff := circle.position - cabClosestPoint circle.position box.position he
  cabNormalPen sqrtf diff (Vec2.dot diff diff) circle.position box.position radius he

/-- The (normal, penetration) pair computed by `ResolveAABBAABB` for a
colliding pair. -/
def bbContact (objA objB : Object) (heA heB : Vec2) : Vec2 × ℚ :=
  bbNormalPen objA.position objB.position
    (min ((objA.position + heA).x - (objB.position - heB).x)
         ((objB.position + heB).x - (objA.position - heA).x))
    (min ((objA.position + heA).y - (objB.position - heB).y)
         ((objB.position + heB).y - (objA.position - heA).y))

/-- Relation between an initial heap and a later heap: staticness is unchanged
everywhere, and every body that started static still has its initial position and
previous position. -/
def staticSame (h h' : ℕ → Object) : Prop :=
  ∀ i, (h' i).isStatic = (h i).isStatic ∧
    ((h i).isStatic = true →
      (h' i).position = (h i).position ∧ (h' i).oldPosition = (h i).oldPosition)

/-- Interpretation of `std::sqrt` that returns 0 everywhere (used to drive
degenerate branches at concrete inputs). -/
def sqrt0 : ℚ → ℚ := fun _ => 0

/-- Interpretation of `std::sqrt` that is exact at 9 (witness inputs only reach
it at 9). -/
def sqrt9 : ℚ → ℚ := fun q => if q = 9 then 3 else 0

/-- Interpretation of `std::sqrt` that is exact at 1. -/
def sqrt1 : ℚ → ℚ := fun q => if q = 1 then 1 else 0

/-- A static body resting at the origin, no collider. -/
def exStaticObj : Object := ⟨⟨0, 0⟩, ⟨0, 0⟩, ⟨0, 0⟩, 1, 7/10, true, none⟩

/-- A dynamic body resting at (3,0), no collider. -/
def exDynObj : Object := ⟨⟨3, 0⟩, ⟨3, 0⟩, ⟨0, 0⟩, 1, 7/10, false, none⟩

/-- World whose only body is static and pinned away from its position: the
configuration on which `Step` moves a static body. -/
def pinStaticWorld : World :=
  { heap := fun _ => exStaticObj, objects := [0], constraints := [(7, .pin 0 ⟨1, 0⟩)] }

/-- World with a static body 0, a dynamic body 1 and a distance constraint
between them (a configuration the amended static invariant covers). -/
def safeStaticWorld : World :=
  { heap := fun i => if i = 0 then exStaticObj else exDynObj,
    objects := [0, 1],
    constraints := [(0, .distance 0 1 5 1)] }

/-- Dynamic body used for the integration-contract witness. -/
def intDynObj : Object := ⟨⟨3, 4⟩, ⟨1, 2⟩, ⟨0, 0⟩, 1, 7/10, false, none⟩

/-- Static body used for the integration-contract witness. -/
def intStaticObj : Object := ⟨⟨9, 9⟩, ⟨9, 9⟩, ⟨0, 0⟩, 1, 7/10, true, none⟩

/-- World used for the integration-contract witness. -/
def intWorld : World :=
  { heap := fun i => if i = 0 then intDynObj else intStaticObj,
    objects := [0, 1], constraints := [] }

/-- Dynamic circle of radius 2 at the origin (center inside the box below). -/
def cabCircleObj : Object := ⟨⟨0, 0⟩, ⟨0, 0⟩, ⟨0, 0⟩, 1, 7/10, false, some (.circle 2)⟩

/-- Static box at (0,3) with half-extents (10,4); it contains the circle above. -/
def cabBoxObj : Object := ⟨⟨0, 3⟩, ⟨0, 3⟩, ⟨0, 0⟩, 1, 7/10, true, some (.aabb ⟨10, 4⟩)⟩

/-- Dynamic unit circle at the origin. -/
def ccAObj : Object := ⟨⟨0, 0⟩, ⟨0, 0⟩, ⟨0, 0⟩, 1, 7/10, false, some (.circle 1)⟩

/-- Dynamic unit circle at (1,0), overlapping the one at the origin. -/
def ccBObj : Object := ⟨⟨1, 0⟩, ⟨1, 0⟩, ⟨0, 0⟩, 1, 7/10, false, some (.circle 1)⟩

/-- Dynamic unit box at the origin. -/
def bbAObj : Object := ⟨⟨0, 0⟩, ⟨0, 0⟩, ⟨0, 0⟩, 1, 7/10, false, some (.aabb ⟨1, 1⟩)⟩

/-- Dynamic unit box at (1,0), overlapping the one at the origin. -/
def bbBObj : Object := ⟨⟨1, 0⟩, ⟨1, 0⟩, ⟨0, 0⟩, 1, 7/10, false, some (.aabb ⟨1, 1⟩)⟩

/-- Static body at the origin (distance-constraint counterexample, first body). -/
def cxAObj : Object := ⟨⟨0, 0⟩, ⟨0, 0⟩, ⟨0, 0⟩, 1, 7/10, true, none⟩

/-- Static body at (3,0) (distance-constraint counterexample, second body). -/
def cxBObj : Object := ⟨⟨3, 0⟩, ⟨3, 0⟩, ⟨0, 0⟩, 1, 7/10, true, none⟩

/-- Dynamic body at (3,0), used for the distance-constraint witness. -/
def dynBObj : Object := ⟨⟨3, 0⟩, ⟨3, 0⟩, ⟨0, 0⟩, 1, 7/10, false, none⟩

/-- Dynamic body at the origin, used for the distance-constraint witness. -/
def dynAObj : Object := ⟨⟨0, 0⟩, ⟨0, 0⟩, ⟨0, 0⟩, 1, 7/10, false, none⟩

/-- Same body as `intDynObj` except for its mass (mass noninterference witness). -/
def heavyDynObj : Object := ⟨⟨3, 4⟩, ⟨1, 2⟩, ⟨0, 0⟩, 5, 7/10, false, none⟩

/-- One-body world with the unit-mass body. -/
def massWorld1 : World := { heap := fun _ => intDynObj, objects := [0], constraints := [] }

/-- One-body world identical to `massWorld1` except for the body's mass. -/
def massWorld2 : World := { heap := fun _ => heavyDynObj, objects := [0], constraints := [] }

/-! Basic lemmas about the vector and heap operations. -/

theorem Vec2.add_def (a b : Vec2) : a + b = ⟨a.x + b.x, a.y + b.y⟩ := rfl

theorem Vec2.sub_def (a b : Vec2) : a - b = ⟨a.x - b.x, a.y - b.y⟩ := rfl

theorem Vec2.hmul_def (a : Vec2) (s : ℚ) : a * s = ⟨a.x * s, a.y * s⟩ := rfl

theorem Vec2.hdiv_def (a : Vec2) (s : ℚ) : a / s = ⟨a.x / s, a.y / s⟩ := rfl

theorem writeHeap_same (h : ℕ → Object) (i : ℕ) (v : Object) : writeHeap h i v i = v := by
  simp [writeHeap]

theorem writeHeap_other (h : ℕ → Object) (i j : ℕ) (v : Object) (hj : j ≠ i) :
    writeHeap h i v j = h j := by
  simp [writeHeap, hj]

theorem mapHeap_cons (f : Object → Object) (a : ℕ) (t : List ℕ) (h : ℕ → Object) :
    mapHeap f (a :: t) h = mapHeap f t (writeHeap h a (f (h a))) := rfl

theorem mapHeap_not_mem (f : Object → Object) :
    ∀ (ids : List ℕ) (h : ℕ → Object) (i : ℕ), i ∉ ids → mapHeap f ids h i = h i := by
  intro ids
  induction ids with
  | nil => intro h i _; rfl
  | cons a t ih =>
      intro h i hi
      rw [mapHeap_cons, ih _ _ (fun ht => hi (List.mem_cons_of_mem a ht)),
        writeHeap_other _ _ _ _ (fun hia => hi (by rw [hia]; exact List.mem_cons_self a t))]

theorem mapHeap_mem (f : Object → Object) :
    ∀ (ids : List ℕ) (h : ℕ → Object) (i : ℕ), ids.Nodup → i ∈ ids →
      mapHeap f ids h i = f (h i) := by
  intro ids
  induction ids with
  | nil => intro h i _ hi; cases hi
  | cons a t ih =>
      intro h i hnd hi
      rw [mapHeap_cons]
      rcases List.mem_cons.mp hi with hia | hit
      · subst hia
        rw [mapHeap_not_mem f t _ _ (List.Nodup.not_mem hnd), writeHeap_same]
      · have hne : i ≠ a := fun hia => (List.Nodup.not_mem hnd) (hia ▸ hit)
        rw [ih _ _ (List.Nodup.of_cons hnd) hit, writeHeap_other _ _ _ _ hne]

/-- C10: the box-collider creation interface takes full side lengths and stores
half-extents: `SetAABBCollider(width, height)` yields
`halfExtents = {width/2, height/2}`, the vector overload halves both components
of the given size, and a box created with size (200, 50) extends 100 units
horizontally and 25 units vertically from the body position. -/
theorem claim_C10_half_extents (o : Object) (width height : ℚ) (size : Vec2) :
    (o.SetAABBCollider width height).collider = some (.aabb ⟨width / 2, height / 2⟩)
    ∧ (o.SetAABBColliderVec size).collider = some (.aabb ⟨size.x / 2, size.y / 2⟩)
    ∧ (Object.SetAABBCollider o 200 50).collider = some (.aabb ⟨100, 25⟩) := by
  refine ⟨?_, ?_, ?_⟩
  · simp only [Object.SetAABBCollider, MakeAABBCollider, Option.some.injEq,
      Collider.aabb.injEq, Vec2.mk.injEq]
    constructor <;> ring
  · simp only [Object.SetAABBColliderVec, MakeAABBColliderVec, Vec2.hmul_def,
      Option.some.injEq, Collider.aabb.injEq, Vec2.mk.injEq]
    constructor <;> ring
  · simp only [Object.SetAABBCollider, MakeAABBCollider, Option.some.injEq,
      Collider.aabb.injEq, Vec2.mk.injEq]
    norm_num

/-- C7: for every body, `SetVelocity(v, dt)` followed by `GetVelocity(dt)`
returns `v` exactly (exact arithmetic) whenever `dt > 0`, because `SetVelocity`
sets `oldPosition = position - v*dt` and `GetVelocity` returns
`(position - oldPosition)/dt`; and `GetVelocity(dt)` returns the zero vector
whenever `dt ≤ 0`. -/
theorem claim_C7_velocity_round_trip (o : Object) (v : Vec2) (dt : ℚ) :
    (0 < dt → (o.SetVelocity v dt).GetVelocity dt = v)
    ∧ (dt ≤ 0 → o.GetVelocity dt = Vec2.zero) := by
  constructor
  · intro hdt
    have hne : dt ≠ 0 := ne_of_gt hdt
    simp only [Object.SetVelocity, Object.GetVelocity, not_le.mpr hdt, if_false]
    cases o with
    | mk p op acc m bn st col =>
      cases v with
      | mk vx vy =>
        simp only [Vec2.sub_def, Vec2.hmul_def, Vec2.hdiv_def, Vec2.mk.injEq]
        constructor <;> field_simp
  · intro hdt
    simp [Object.GetVelocity, hdt]

/-- C6: `PinConstraint::Solve` unconditionally sets the pinned body's position to
the anchor — no blending and no stiffness — so after one solve the position
equals the anchor no matter how the body was moved beforehand; an anchor updated
via `SetAnchor` takes effect on the next solve; no other body is touched. -/
theorem claim_C6_pin_sets_anchor (sqrtf : ℚ → ℚ) (h : ℕ → Object) (i : ℕ)
    (anchor newAnchor : Vec2) :
    ((solveConstraint sqrtf h (.pin i anchor)) i).position = anchor
    ∧ ((solveConstraint sqrtf h ((Constraint.pin i anchor).SetAnchor newAnchor)) i).position
        = newAnchor
    ∧ (∀ j, j ≠ i → solveConstraint sqrtf h (.pin i anchor) j = h j) := by
  refine ⟨?_, ?_, ?_⟩
  · simp [solveConstraint, pinSolve, writeHeap_same]
  · simp [Constraint.SetAnchor, solveConstraint, pinSolve, writeHeap_same]
  · intro j hj
    simp only [solveConstraint]
    exact writeHeap_other _ _ _ _ hj

/-- C2: `Step(dt)` runs gravity then Verlet integration (then constraints, then
collisions); for every body registered once, the first two phases leave a static
body entirely untouched, and turn a non-static body `o` into `o` with
`acceleration = gravity`, `position = position + (position - oldPosition)
+ gravity * dt * dt` and `oldPosition` = the pre-update position. -/
theorem claim_C2_integration_contract (sqrtf : ℚ → ℚ) (dt : ℚ) (w : World) (i : ℕ)
    (hnd : w.objects.Nodup) (hi : i ∈ w.objects) :
    stepWorld sqrtf dt w
      = collisionPhase sqrtf
          (World.SolveAllConstraints sqrtf (integratePhase dt (gravityPhase w)))
    ∧ (integratePhase dt (gravityPhase w)).heap i
      = (if (w.heap i).isStatic then w.heap i
         else
          {w.heap i with
            acceleration := w.gravity,
            position := (w.heap i).position
              + ((w.heap i).position - (w.heap i).oldPosition) + w.gravity * dt * dt,
            oldPosition := (w.heap i).position}) := by
  refine ⟨rfl, ?_⟩
  have hg : (gravityPhase w).heap i = objGravity w.gravity (w.heap i) :=
    mapHeap_mem _ _ _ _ hnd hi
  have hint : (integratePhase dt (gravityPhase w)).heap i
      = objIntegrate dt ((gravityPhase w).heap i) :=
    mapHeap_mem _ _ _ _ hnd hi
  rw [hint, hg]
  generalize w.heap i = o
  rcases o with ⟨p, op, acc, m, bn, st, col⟩
  cases st <;> simp [objGravity, objIntegrate]

/-- C8: removing an unregistered body or constraint is a silent no-op (the world
is unchanged, nothing is signalled — both operations are total); a successful
`RemoveObject` does not touch the heap (the body is not destroyed) nor the
constraints, and keeps the remaining bodies in order; `RemoveConstraint` keeps
the bodies and heap, and every other constraint, in order. -/
theorem claim_C8_removal_no_op (w : World) (i cid : ℕ) :
    (i ∉ w.objects → w.RemoveObject i = w)
    ∧ (w.RemoveObject i).heap = w.heap
    ∧ (w.RemoveObject i).constraints = w.constraints
    ∧ List.Sublist (w.RemoveObject i).objects w.objects
    ∧ (∀ j, j ≠ i → (w.RemoveObject i).objects.count j = w.objects.count j)
    ∧ (cid ∉ w.constraints.map Prod.fst → w.RemoveConstraint cid = w)
    ∧ (w.RemoveConstraint cid).objects = w.objects
    ∧ (w.RemoveConstraint cid).heap = w.heap
    ∧ List.Sublist (w.RemoveConstraint cid).constraints w.constraints
    ∧ (∀ d c, d ≠ cid →
        ((d, c) ∈ w.constraints ↔ (d, c) ∈ (w.RemoveConstraint cid).constraints)) := by
  refine ⟨?_, rfl, rfl, ?_, ?_, ?_, rfl, rfl, ?_, ?_⟩
  · intro hi
    have hf : w.objects.filter (fun j => j != i) = w.objects :=
      List.filter_eq_self.mpr (fun a ha => by
        simp only [bne_iff_ne, ne_eq, decide_eq_true_eq]
        exact fun heq => hi (heq ▸ ha))
    show {w with objects := w.objects.filter (fun j => j != i)} = w
    rw [hf]
  · exact List.filter_sublist _
  · intro j hj
    exact List.count_filter (by simp [bne_iff_ne, hj])
  · intro hc
    have hf : w.constraints.filter (fun c => c.1 != cid) = w.constraints :=
      List.filter_eq_self.mpr (fun c hcmem => by
        simp only [bne_iff_ne, ne_eq, decide_eq_true_eq]
        exact fun heq => hc (heq ▸ List.mem_map_of_mem Prod.fst hcmem))
    show {w with constraints := w.constraints.filter (fun c => c.1 != cid)} = w
    rw [hf]
  · exact List.filter_sublist _
  · intro d c hd
    constructor
    · intro hmem
      exact List.mem_filter.mpr ⟨hmem, by simp [bne_iff_ne, hd]⟩
    · intro hmem
      exact (List.mem_filter.mp hmem).1

/-! Vector algebra helpers for the correction-stage lemmas. -/

theorem vec_sub_sub (p q c : Vec2) : (p - c) - (q - c) = p - q := by
  simp only [Vec2.sub_def, Vec2.mk.injEq]
  constructor <;> ring

theorem vec_add_add (p q c : Vec2) : (p + c) - (q + c) = p - q := by
  simp only [Vec2.add_def, Vec2.sub_def, Vec2.mk.injEq]
  constructor <;> ring

theorem vec_shift_sub (p q c : Vec2) : (p - c) - p = (q - c) - q := by
  simp only [Vec2.sub_def, Vec2.mk.injEq]
  constructor <;> ring

theorem vec_shift_add (p q c : Vec2) : (p + c) - p = (q + c) - q := by
  simp only [Vec2.add_def, Vec2.sub_def, Vec2.mk.injEq]
  constructor <;> ring

theorem vec_sub_self_eq (p q : Vec2) : p - p = q - q := by
  simp only [Vec2.sub_def, Vec2.mk.injEq]
  constructor <;> ring

/-! Correction-stage lemmas: implicit velocity is preserved and position and
oldPosition receive the same shift; bounce-stage lemmas: position is untouched. -/

theorem ccCorrection_fst_vel (n : Vec2) (p : ℚ) (a b : Object) :
    (ccCorrection n p a b).1.position - (ccCorrection n p a b).1.oldPosition
      = a.position - a.oldPosition := by
  simp only [ccCorrection]
  split_ifs <;> first | rfl | exact vec_sub_sub _ _ _

theorem ccCorrection_snd_vel (n : Vec2) (p : ℚ) (a b : Object) :
    (ccCorrection n p a b).2.position - (ccCorrection n p a b).2.oldPosition
      = b.position - b.oldPosition := by
  simp only [ccCorrection]
  split_ifs <;> first | rfl | exact vec_add_add _ _ _

theorem ccCorrection_fst_shift (n : Vec2) (p : ℚ) (a b : Object) :
    (ccCorrection n p a b).1.position - a.position
      = (ccCorrection n p a b).1.oldPosition - a.oldPosition := by
  simp only [ccCorrection]
  split_ifs <;> first | exact vec_sub_self_eq _ _ | exact vec_shift_sub _ _ _

theorem ccCorrection_snd_shift (n : Vec2) (p : ℚ) (a b : Object) :
    (ccCorrection n p a b).2.position - b.position
      = (ccCorrection n p a b).2.oldPosition - b.oldPosition := by
  simp only [ccCorrection]
  split_ifs <;> first | exact vec_sub_self_eq _ _ | exact vec_shift_add _ _ _

theorem cabCorrection_fst_vel (n : Vec2) (p : ℚ) (circle box : Object) :
    (cabCorrection n p circle box).1.position - (cabCorrection n p circle box).1.oldPosition
      = circle.position - circle.oldPosition := by
  simp only [cabCorrection]
  split_ifs <;> first | rfl | exact vec_add_add _ _ _

theorem cabCorrection_snd_vel (n : Vec2) (p : ℚ) (circle box : Object) :
    (cabCorrection n p circle box).2.position - (cabCorrection n p circle box).2.oldPosition
      = box.position - box.oldPosition := by
  simp only [cabCorrection]
  split_ifs <;> first | rfl | exact vec_sub_sub _ _ _

theorem cabCorrection_fst_shift (n : Vec2) (p : ℚ) (circle box : Object) :
    (cabCorrection n p circle box).1.position - circle.position
      = (cabCorrection n p circle box).1.oldPosition - circle.oldPosition := by
  simp only [cabCorrection]
  split_ifs <;> first | exact vec_sub_self_eq _ _ | exact vec_shift_add _ _ _

theorem cabCorrection_snd_shift (n : Vec2) (p : ℚ) (circle box : Object) :
    (cabCorrection n p circle box).2.position - box.position
      = (cabCorrection n p circle box).2.oldPosition - box.oldPosition := by
  simp only [cabCorrection]
  split_ifs <;> first | exact vec_sub_self_eq _ _ | exact vec_shift_sub _ _ _

theorem bbCorrection_fst_vel (n : Vec2) (p : ℚ) (a b : Object) :
    (bbCorrection n p a b).1.position - (bbCorrection n p a b).1.oldPosition
      = a.position - a.oldPosition := by
  simp only [bbCorrection]
  split_ifs <;> first | rfl | exact vec_add_add _ _ _

theorem bbCorrection_snd_vel (n : Vec2) (p : ℚ) (a b : Object) :
    (bbCorrection n p a b).2.position - (bbCorrection n p a b).2.oldPosition
      = b.position - b.oldPosition := by
  simp only [bbCorrection]
  split_ifs <;> first | rfl | exact vec_sub_sub _ _ _

theorem bbCorrection_fst_shift (n : Vec2) (p : ℚ) (a b : Object) :
    (bbCorrection n p a b).1.position - a.position
      = (bbCorrection n p a b).1.oldPosition - a.oldPosition := by
  simp only [bbCorrection]
  split_ifs <;> first | exact vec_sub_self_eq _ _ | exact vec_shift_add _ _ _

theorem bbCorrection_snd_shift (n : Vec2) (p : ℚ) (a b : Object) :
    (bbCorrection n p a b).2.position - b.position
      = (bbCorrection n p a b).2.oldPosition - b.oldPosition := by
  simp only [bbCorrection]
  split_ifs <;> first | exact vec_sub_self_eq _ _ | exact vec_shift_sub _ _ _

theorem ccBounce_fst_pos (n vA vB : Vec2) (a b : Object) :
    (ccBounce n vA vB a b).1.position = a.position := by
  simp only [ccBounce]
  split_ifs <;> rfl

theorem ccBounce_snd_pos (n vA vB : Vec2) (a b : Object) :
    (ccBounce n vA vB a b).2.position = b.position := by
  simp only [ccBounce]
  split_ifs <;> rfl

theorem bbBounce_fst_pos (n vA vB : Vec2) (a b : Object) :
    (bbBounce n vA vB a b).1.position = a.position := by
  simp only [bbBounce]
  split_ifs <;> rfl

theorem bbBounce_snd_pos (n vA vB : Vec2) (a b : Object) :
    (bbBounce n vA vB a b).2.position = b.position := by
  simp only [bbBounce]
  split_ifs <;> rfl

theorem cabBounce_pos (n v : Vec2) (s : ℚ) (c : Object) :
    (cabBounce n v s c).position = c.position := by
  simp only [cabBounce]
  split_ifs <;> rfl

/-- C4: in each of the three resolvers, the positional-correction stage adds one
and the same vector to a moved body's `position` and `oldPosition` (so the shift
of `position` equals the shift of `oldPosition`), hence leaves the implicit
velocity `position - oldPosition` of every body unchanged; and the bounce stage
never touches `position` (it only adjusts `oldPosition`), so only the bounce
stage alters implicit velocity. -/
theorem claim_C4_correction_preserves_velocity (n vA vB v : Vec2) (p s : ℚ)
    (a b circle box : Object) :
    ((ccCorrection n p a b).1.position - (ccCorrection n p a b).1.oldPosition
        = a.position - a.oldPosition)
    ∧ ((ccCorrection n p a b).2.position - (ccCorrection n p a b).2.oldPosition
        = b.position - b.oldPosition)
    ∧ ((ccCorrection n p a b).1.position - a.position
        = (ccCorrection n p a b).1.oldPosition - a.oldPosition)
    ∧ ((ccCorrection n p a b).2.position - b.position
        = (ccCorrection n p a b).2.oldPosition - b.oldPosition)
    ∧ ((cabCorrection n p circle box).1.position - (cabCorrection n p circle box).1.oldPosition
        = circle.position - circle.oldPosition)
    ∧ ((cabCorrection n p circle box).2.position - (cabCorrection n p circle box).2.oldPosition
        = box.position - box.oldPosition)
    ∧ ((cabCorrection n p circle box).1.position - circle.position
        = (cabCorrection n p circle box).1.oldPosition - circle.oldPosition)
    ∧ ((cabCorrection n p circle box).2.position - box.position
        = (cabCorrection n p circle box).2.oldPosition - box.oldPosition)
    ∧ ((bbCorrection n p a b).1.position - (bbCorrection n p a b).1.oldPosition
        = a.position - a.oldPosition)
    ∧ ((bbCorrection n p a b).2.position - (bbCorrection n p a b).2.oldPosition
        = b.position - b.oldPosition)
    ∧ ((bbCorrection n p a b).1.position - a.position
        = (bbCorrection n p a b).1.oldPosition - a.oldPosition)
    ∧ ((bbCorrection n p a b).2.position - b.position
        = (bbCorrection n p a b).2.oldPosition - b.oldPosition)
    ∧ ((ccBounce n vA vB a b).1.position = a.position)
    ∧ ((ccBounce n vA vB a b).2.position = b.position)
    ∧ ((cabBounce n v s circle).position = circle.position)
    ∧ ((bbBounce n vA vB a b).1.position = a.position)
    ∧ ((bbBounce n vA vB a b).2.position = b.position) :=
  ⟨ccCorrection_fst_vel n p a b, ccCorrection_snd_vel n p a b,
   ccCorrection_fst_shift n p a b, ccCorrection_snd_shift n p a b,
   cabCorrection_fst_vel n p circle box, cabCorrection_snd_vel n p circle box,
   cabCorrection_fst_shift n p circle box, cabCorrection_snd_shift n p circle box,
   bbCorrection_fst_vel n p a b, bbCorrection_snd_vel n p a b,
   bbCorrection_fst_shift n p a b, bbCorrection_snd_shift n p a b,
   ccBounce_fst_pos n vA vB a b, ccBounce_snd_pos n vA vB a b,
   cabBounce_pos n v s circle,
   bbBounce_fst_pos n vA vB a b, bbBounce_snd_pos n vA vB a b⟩

/-! Correction displacements of non-static bodies. -/

theorem ccCorrection_fst_nonstatic (n : Vec2) (p : ℚ) (a b : Object)
    (ha : a.isStatic = false) :
    (ccCorrection n p a b).1.position = a.position - n * (p * (1/2 : ℚ)) := by
  simp [ccCorrection, ha]

theorem ccCorrection_snd_nonstatic (n : Vec2) (p : ℚ) (a b : Object)
    (hb : b.isStatic = false) :
    (ccCorrection n p a b).2.position = b.position + n * (p * (1/2 : ℚ)) := by
  simp [ccCorrection, hb]

theorem cabCorrection_fst_nonstatic (n : Vec2) (p : ℚ) (circle box : Object)
    (hc : circle.isStatic = false) :
    (cabCorrection n p circle box).1.position = circle.position + n * p := by
  simp [cabCorrection, hc]

theorem cabCorrection_snd_nonstatic (n : Vec2) (p : ℚ) (circle box : Object)
    (hb : box.isStatic = false) :
    (cabCorrection n p circle box).2.position = box.position - n * p := by
  simp [cabCorrection, hb]

theorem bbCorrection_fst_nonstatic (n : Vec2) (p : ℚ) (a b : Object)
    (ha : a.isStatic = false) :
    (bbCorrection n p a b).1.position = a.position + n * (p * (1/2 : ℚ)) := by
  simp [bbCorrection, ha]

theorem bbCorrection_snd_nonstatic (n : Vec2) (p : ℚ) (a b : Object)
    (hb : b.isStatic = false) :
    (bbCorrection n p a b).2.position = b.position - n * (p * (1/2 : ℚ)) := by
  simp [bbCorrection, hb]

/-- C3: for every colliding pair, the circle-box resolver displaces each
non-static body by the full `normal * penetration` (the circle by `+`, the box by
`-`), whereas the circle-circle and box-box resolvers displace each non-static
body by only half the penetration (`normal * (penetration * 0.5)`). -/
theorem claim_C3_full_correction_asymmetry (sqrtf : ℚ → ℚ)
    (a b circle box boxA boxB : Object) (rA rB radius : ℚ) (he heA heB : Vec2) :
    ((a.GetCircleCollider = some rA → b.GetCircleCollider = some rB →
      Vec2.dot (b.position - a.position) (b.position - a.position)
          < (rA + rB) * (rA + rB) →
      (a.isStatic = false →
        (ResolveCircleCircle sqrtf a b).1.position
          = a.position
            - (ccContact sqrtf a b rA rB).1 * ((ccContact sqrtf a b rA rB).2 * (1/2 : ℚ)))
      ∧ (b.isStatic = false →
        (ResolveCircleCircle sqrtf a b).2.position
          = b.position
            + (ccContact sqrtf a b rA rB).1 * ((ccContact sqrtf a b rA rB).2 * (1/2 : ℚ)))))
    ∧ ((circle.GetCircleCollider = some radius → box.GetAABBCollider = some he →
      Vec2.dot (circle.position - cabClosestPoint circle.position box.position he)
          (circle.position - cabClosestPoint circle.position box.position he)
          < radius * radius →
      (circle.isStatic = false →
        (ResolveCircleAABB sqrtf circle box).1.position
          = circle.position
            + (cabContact sqrtf circle box radius he).1
              * (cabContact sqrtf circle box radius he).2)
      ∧ (box.isStatic = false →
        (ResolveCircleAABB sqrtf circle box).2.position
          = box.position
            - (cabContact sqrtf circle box radius he).1
              * (cabContact sqrtf circle box radius he).2)))
    ∧ ((boxA.GetAABBCollider = some heA → boxB.GetAABBCollider = some heB →
      ¬((boxA.position + heA).x < (boxB.position - heB).x
          ∨ (boxB.position + heB).x < (boxA.position - heA).x) →
      ¬((boxA.position + heA).y < (boxB.position - heB).y
          ∨ (boxB.position + heB).y < (boxA.position - heA).y) →
      (boxA.isStatic = false →
        (ResolveAABBAABB boxA boxB).1.position
          = boxA.position
            + (bbContact boxA boxB heA heB).1
              * ((bbContact boxA boxB heA heB).2 * (1/2 : ℚ)))
      ∧ (boxB.isStatic = false →
        (ResolveAABBAABB boxA boxB).2.position
          = boxB.position
            - (bbContact boxA boxB heA heB).1
              * ((bbContact boxA boxB heA heB).2 * (1/2 : ℚ))))) := by
  refine ⟨?_, ?_, ?_⟩
  · intro hca hcb hhit
    simp only [ResolveCircleCircle, hca, hcb, if_pos hhit]
    constructor
    · intro ha
      rw [ccBounce_fst_pos, ccCorrection_fst_nonstatic _ _ _ _ ha]
      rfl
    · intro hb
      rw [ccBounce_snd_pos, ccCorrection_snd_nonstatic _ _ _ _ hb]
      rfl
  · intro hcc hcb hhit
    simp only [ResolveCircleAABB, hcc, hcb, if_pos hhit]
    constructor
    · intro hc
      rw [cabBounce_pos, cabCorrection_fst_nonstatic _ _ _ _ hc]
      rfl
    · intro hb
      rw [cabCorrection_snd_nonstatic _ _ _ _ hb]
      rfl
  · intro hba hbb hsx hsy
    simp only [ResolveAABBAABB, hba, hbb, if_neg hsx, if_neg hsy]
    constructor
    · intro ha
      rw [bbBounce_fst_pos, bbCorrection_fst_nonstatic _ _ _ _ ha]
      rfl
    · intro hb
      rw [bbBounce_snd_pos, bbCorrection_snd_nonstatic _ _ _ _ hb]
      rfl

/-- C5 (amended): `DistanceConstraint::Solve` returns both bodies unchanged when
the current separation `sqrt(distSq)` is below the epsilon 0.0001 (no division
happens); otherwise it moves only positions (never `oldPosition`) by the
correction `unit direction * (currentLength - restLength) * stiffness`: when
`objA` is static, `objB` absorbs 100% of the correction (even if `objB` is
itself static); otherwise when `objB` is static, `objA` absorbs 100%; otherwise
each absorbs 50%. -/
theorem claim_C5_distance_solve (sqrtf : ℚ → ℚ) (rl st : ℚ) (a b : Object) :
    (distCurrentLength sqrtf a b < 1/10000 → distanceSolve sqrtf rl st a b = (a, b))
    ∧ (¬ distCurrentLength sqrtf a b < 1/10000 →
        ((distanceSolve sqrtf rl st a b).1.oldPosition = a.oldPosition)
        ∧ ((distanceSolve sqrtf rl st a b).2.oldPosition = b.oldPosition)
        ∧ (a.isStatic = true →
            (distanceSolve sqrtf rl st a b).1 = a
            ∧ (distanceSolve sqrtf rl st a b).2.position
                = b.position - distCorrection sqrtf rl st a b)
        ∧ (a.isStatic = false → b.isStatic = true →
            (distanceSolve sqrtf rl st a b).2 = b
            ∧ (distanceSolve sqrtf rl st a b).1.position
                = a.position + distCorrection sqrtf rl st a b)
        ∧ (a.isStatic = false → b.isStatic = false →
            (distanceSolve sqrtf rl st a b).1.position
                = a.position + distCorrection sqrtf rl st a b * (1/2 : ℚ)
            ∧ (distanceSolve sqrtf rl st a b).2.position
                = b.position - distCorrection sqrtf rl st a b * (1/2 : ℚ))) := by
  constructor
  · intro hlt
    have hlt2 : sqrtf (Vec2.dot (b.position - a.position) (b.position - a.position))
        < 1/10000 := hlt
    simp only [distanceSolve]
    rw [if_pos hlt2]
  · intro hge
    have hge2 : ¬ sqrtf (Vec2.dot (b.position - a.position) (b.position - a.position))
        < 1/10000 := hge
    simp only [distanceSolve]
    rw [if_neg hge2]
    refine ⟨?_, ?_, ?_, ?_, ?_⟩
    · split_ifs <;> rfl
    · split_ifs <;> rfl
    · intro ha
      simp [ha, distCorrection, distCurrentLength]
    · intro ha hb
      simp [ha, hb, distCorrection, distCurrentLength]
    · intro ha hb
      simp [ha, hb, distCorrection, distCurrentLength]

/-! Static-body preservation machinery. -/

theorem staticSame_refl (h : ℕ → Object) : staticSame h h :=
  fun _ => ⟨rfl, fun _ => ⟨rfl, rfl⟩⟩

theorem staticSame_trans {h1 h2 h3 : ℕ → Object} (a : staticSame h1 h2)
    (b : staticSame h2 h3) : staticSame h1 h3 := by
  intro i
  obtain ⟨e1, p1⟩ := a i
  obtain ⟨e2, p2⟩ := b i
  refine ⟨e2.trans e1, fun hs => ?_⟩
  obtain ⟨q1, q2⟩ := p1 hs
  obtain ⟨r1, r2⟩ := p2 (by rw [e1]; exact hs)
  exact ⟨r1.trans q1, r2.trans q2⟩

theorem staticSame_write (h : ℕ → Object) (i : ℕ) (v : Object)
    (hstat : v.isStatic = (h i).isStatic)
    (hpos : (h i).isStatic = true →
      v.position = (h i).position ∧ v.oldPosition = (h i).oldPosition) :
    staticSame h (writeHeap h i v) := by
  intro j
  by_cases hj : j = i
  · subst hj
    rw [writeHeap_same]
    exact ⟨hstat, hpos⟩
  · rw [writeHeap_other _ _ _ _ hj]
    exact ⟨rfl, fun _ => ⟨rfl, rfl⟩⟩

theorem staticSame_write2 (h : ℕ → Object) (a b : ℕ) (va vb : Object)
    (hsa : va.isStatic = (h a).isStatic)
    (hpa : (h a).isStatic = true →
      va.position = (h a).position ∧ va.oldPosition = (h a).oldPosition)
    (hsb : vb.isStatic = (h b).isStatic)
    (hpb : (h b).isStatic = true →
      vb.position = (h b).position ∧ vb.oldPosition = (h b).oldPosition) :
    staticSame h (writeHeap (writeHeap h a va) b vb) := by
  intro j
  by_cases hjb : j = b
  · subst hjb
    rw [writeHeap_same]
    exact ⟨hsb, hpb⟩
  · rw [writeHeap_other _ _ _ _ hjb]
    by_cases hja : j = a
    · subst hja
      rw [writeHeap_same]
      exact ⟨hsa, hpa⟩
    · rw [writeHeap_other _ _ _ _ hja]
      exact ⟨rfl, fun _ => ⟨rfl, rfl⟩⟩

theorem objGravity_isStatic (g : Vec2) (o : Object) :
    (objGravity g o).isStatic = o.isStatic := by
  simp only [objGravity]
  split_ifs <;> rfl

theorem objGravity_static (g : Vec2) (o : Object) (hs : o.isStatic = true) :
    objGravity g o = o := by
  simp [objGravity, hs]

theorem objIntegrate_isStatic (dt : ℚ) (o : Object) :
    (objIntegrate dt o).isStatic = o.isStatic := by
  simp only [objIntegrate]
  split_ifs <;> rfl

theorem objIntegrate_static (dt : ℚ) (o : Object) (hs : o.isStatic = true) :
    objIntegrate dt o = o := by
  simp [objIntegrate, hs]

theorem mapHeap_staticSame (f : Object → Object)
    (hstat : ∀ o, (f o).isStatic = o.isStatic)
    (hfix : ∀ o, o.isStatic = true → f o = o) :
    ∀ (ids : List ℕ) (h0 h : ℕ → Object), staticSame h0 h →
      staticSame h0 (mapHeap f ids h) := by
  intro ids
  induction ids with
  | nil => intro h0 h hss; exact hss
  | cons a t ih =>
      intro h0 h hss
      rw [mapHeap_cons]
      refine ih h0 _ (staticSame_trans hss (staticSame_write _ _ _ (hstat _) ?_))
      intro hs
      rw [hfix _ hs]
      exact ⟨rfl, rfl⟩

theorem distanceSolve_fst_isStatic (sqrtf : ℚ → ℚ) (rl st : ℚ) (a b : Object) :
    (distanceSolve sqrtf rl st a b).1.isStatic = a.isStatic := by
  simp only [distanceSolve]
  split_ifs <;> rfl

theorem distanceSolve_snd_isStatic (sqrtf : ℚ → ℚ) (rl st : ℚ) (a b : Object) :
    (distanceSolve sqrtf rl st a b).2.isStatic = b.isStatic := by
  simp only [distanceSolve]
  split_ifs <;> rfl

theorem distanceSolve_fst_static (sqrtf : ℚ → ℚ) (rl st : ℚ) (a b : Object)
    (ha : a.isStatic = true) : (distanceSolve sqrtf rl st a b).1 = a := by
  simp only [distanceSolve]
  split_ifs <;> rfl

theorem distanceSolve_snd_static (sqrtf : ℚ → ℚ) (rl st : ℚ) (a b : Object)
    (hnb : ¬(a.isStatic = true ∧ b.isStatic = true)) (hb : b.isStatic = true) :
    (distanceSolve sqrtf rl st a b).2 = b := by
  simp only [distanceSolve]
  split_ifs <;> first | rfl | simp_all

theorem springSolve_fst_isStatic (sqrtf : ℚ → ℚ) (rl st dp : ℚ) (a b : Object) :
    (springSolve sqrtf rl st dp a b).1.isStatic = a.isStatic := by
  simp only [springSolve]
  split_ifs <;> rfl

theorem springSolve_snd_isStatic (sqrtf : ℚ → ℚ) (rl st dp : ℚ) (a b : Object) :
    (springSolve sqrtf rl st dp a b).2.isStatic = b.isStatic := by
  simp only [springSolve]
  split_ifs <;> rfl

theorem springSolve_fst_static (sqrtf : ℚ → ℚ) (rl st dp : ℚ) (a b : Object)
    (ha : a.isStatic = true) : (springSolve sqrtf rl st dp a b).1 = a := by
  simp only [springSolve]
  split_ifs <;> rfl

theorem springSolve_snd_static (sqrtf : ℚ → ℚ) (rl st dp : ℚ) (a b : Object)
    (hnb : ¬(a.isStatic = true ∧ b.isStatic = true)) (hb : b.isStatic = true) :
    (springSolve sqrtf rl st dp a b).2 = b := by
  simp only [springSolve]
  split_ifs <;> first | rfl | simp_all

theorem safeConstraint_congr {h h' : ℕ → Object} (hss : staticSame h h')
    (c : Constraint) : safeConstraint h' c = safeConstraint h c := by
  cases c with
  | distance a b rl st => simp [safeConstraint, (hss a).1, (hss b).1]
  | spring a b rl st dp => simp [safeConstraint, (hss a).1, (hss b).1]
  | pin i anchor => simp [safeConstraint, (hss i).1]

theorem solveConstraint_staticSame (sqrtf : ℚ → ℚ) (h : ℕ → Object) (c : Constraint)
    (hc : safeConstraint h c = true) : staticSame h (solveConstraint sqrtf h c) := by
  cases c with
  | distance a b rl st =>
      have hnb : ¬((h a).isStatic = true ∧ (h b).isStatic = true) := by
        rintro ⟨ha2, hb2⟩
        simp [safeConstraint, ha2, hb2] at hc
      simp only [solveConstraint]
      apply staticSame_write2
      · exact distanceSolve_fst_isStatic sqrtf rl st _ _
      · intro hs
        rw [distanceSolve_fst_static sqrtf rl st _ _ hs]
        exact ⟨rfl, rfl⟩
      · exact distanceSolve_snd_isStatic sqrtf rl st _ _
      · intro hs
        rw [distanceSolve_snd_static sqrtf rl st _ _ hnb hs]
        exact ⟨rfl, rfl⟩
  | spring a b rl st dp =>
      have hnb : ¬((h a).isStatic = true ∧ (h b).isStatic = true) := by
        rintro ⟨ha2, hb2⟩
        simp [safeConstraint, ha2, hb2] at hc
      simp only [solveConstraint]
      apply staticSame_write2
      · exact springSolve_fst_isStatic sqrtf rl st dp _ _
      · intro hs
        rw [springSolve_fst_static sqrtf rl st dp _ _ hs]
        exact ⟨rfl, rfl⟩
      · exact springSolve_snd_isStatic sqrtf rl st dp _ _
      · intro hs
        rw [springSolve_snd_static sqrtf rl st dp _ _ hnb hs]
        exact ⟨rfl, rfl⟩
  | pin i anchor =>
      have hns : (h i).isStatic = false := by
        cases hsi : (h i).isStatic
        · rfl
        · simp [safeConstraint, hsi] at hc
      simp only [solveConstraint]
      apply staticSame_write
      · rfl
      · intro hs
        rw [hns] at hs
        cases hs

theorem solveConstraintsOnce_cons (sqrtf : ℚ → ℚ) (c : ℕ × Constraint)
    (cs : List (ℕ × Constraint)) (h : ℕ → Object) :
    solveConstraintsOnce sqrtf (c :: cs) h
      = solveConstraintsOnce sqrtf cs (solveConstraint sqrtf h c.2) := rfl

theorem solveOnce_staticSame (sqrtf : ℚ → ℚ) (cs : List (ℕ × Constraint)) :
    ∀ (h0 h : ℕ → Object), staticSame h0 h →
      (∀ c ∈ cs, safeConstraint h0 c.2 = true) →
      staticSame h0 (solveConstraintsOnce sqrtf cs h) := by
  induction cs with
  | nil => intro h0 h hss _; exact hss
  | cons c t ih =>
      intro h0 h hss hsafe
      rw [solveConstraintsOnce_cons]
      have hc : safeConstraint h c.2 = true := by
        rw [safeConstraint_congr hss]
        exact hsafe c (List.mem_cons_self _ _)
      exact ih _ _ (staticSame_trans hss (solveConstraint_staticSame sqrtf h c.2 hc))
        (fun d hd => hsafe d (List.mem_cons_of_mem _ hd))

theorem solveIter_staticSame (sqrtf : ℚ → ℚ) (cs : List (ℕ × Constraint)) (n : ℕ) :
    ∀ (h0 h : ℕ → Object), staticSame h0 h →
      (∀ c ∈ cs, safeConstraint h0 c.2 = true) →
      staticSame h0 ((solveConstraintsOnce sqrtf cs)^[n] h) := by
  induction n with
  | zero => intro h0 h hss _; exact hss
  | succ n ih =>
      intro h0 h hss hsafe
      rw [Function.iterate_succ_apply]
      exact ih h0 _ (solveOnce_staticSame sqrtf cs h0 h hss hsafe) hsafe

/-! Collision resolvers never move static bodies. -/

theorem ccCorrection_fst_isStatic (n : Vec2) (p : ℚ) (a b : Object) :
    (ccCorrection n p a b).1.isStatic = a.isStatic := by
  simp only [ccCorrection]
  split_ifs <;> rfl

theorem ccCorrection_snd_isStatic (n : Vec2) (p : ℚ) (a b : Object) :
    (ccCorrection n p a b).2.isStatic = b.isStatic := by
  simp only [ccCorrection]
  split_ifs <;> rfl

theorem ccCorrection_fst_static (n : Vec2) (p : ℚ) (a b : Object)
    (ha : a.isStatic = true) : (ccCorrection n p a b).1 = a := by
  simp [ccCorrection, ha]

theorem ccCorrection_snd_static (n : Vec2) (p : ℚ) (a b : Object)
    (hb : b.isStatic = true) : (ccCorrection n p a b).2 = b := by
  simp [ccCorrection, hb]

theorem ccBounce_fst_isStatic (n vA vB : Vec2) (a b : Object) :
    (ccBounce n vA vB a b).1.isStatic = a.isStatic := by
  simp only [ccBounce]
  split_ifs <;> rfl

theorem ccBounce_snd_isStatic (n vA vB : Vec2) (a b : Object) :
    (ccBounce n vA vB a b).2.isStatic = b.isStatic := by
  simp only [ccBounce]
  split_ifs <;> rfl

theorem ccBounce_fst_static (n vA vB : Vec2) (a b : Object)
    (ha : a.isStatic = true) : (ccBounce n vA vB a b).1 = a := by
  simp only [ccBounce]
  split_ifs <;> simp [ha]

theorem ccBounce_snd_static (n vA vB : Vec2) (a b : Object)
    (hb : b.isStatic = true) : (ccBounce n vA vB a b).2 = b := by
  simp only [ccBounce]
  split_ifs <;> simp [hb]

theorem cabCorrection_fst_isStatic (n : Vec2) (p : ℚ) (circle box : Object) :
    (cabCorrection n p circle box).1.isStatic = circle.isStatic := by
  simp only [cabCorrection]
  split_ifs <;> rfl

theorem cabCorrection_snd_isStatic (n : Vec2) (p : ℚ) (circle box : Object) :
    (cabCorrection n p circle box).2.isStatic = box.isStatic := by
  simp only [cabCorrection]
  split_ifs <;> rfl

theorem cabCorrection_fst_static (n : Vec2) (p : ℚ) (circle box : Object)
    (hc : circle.isStatic = true) : (cabCorrection n p circle box).1 = circle := by
  simp [cabCorrection, hc]

theorem cabCorrection_snd_static (n : Vec2) (p : ℚ) (circle box : Object)
    (hb : box.isStatic = true) : (cabCorrection n p circle box).2 = box := by
  simp [cabCorrection, hb]

theorem cabBounce_isStatic (n v : Vec2) (s : ℚ) (c : Object) :
    (cabBounce n v s c).isStatic = c.isStatic := by
  simp only [cabBounce]
  split_ifs <;> rfl

theorem cabBounce_static (n v : Vec2) (s : ℚ) (c : Object)
    (hc : c.isStatic = true) : cabBounce n v s c = c := by
  simp [cabBounce, hc]

theorem bbCorrection_fst_isStatic (n : Vec2) (p : ℚ) (a b : Object) :
    (bbCorrection n p a b).1.isStatic = a.isStatic := by
  simp only [bbCorrection]
  split_ifs <;> rfl

theorem bbCorrection_snd_isStatic (n : Vec2) (p : ℚ) (a b : Object) :
    (bbCorrection n p a b).2.isStatic = b.isStatic := by
  simp only [bbCorrection]
  split_ifs <;> rfl

theorem bbCorrection_fst_static (n : Vec2) (p : ℚ) (a b : Object)
    (ha : a.isStatic = true) : (bbCorrection n p a b).1 = a := by
  simp [bbCorrection, ha]

theorem bbCorrection_snd_static (n : Vec2) (p : ℚ) (a b : Object)
    (hb : b.isStatic = true) : (bbCorrection n p a b).2 = b := by
  simp [bbCorrection, hb]

theorem bbBounce_fst_isStatic (n vA vB : Vec2) (a b : Object) :
    (bbBounce n vA vB a b).1.isStatic = a.isStatic := by
  simp only [bbBounce]
  split_ifs <;> rfl

theorem bbBounce_snd_isStatic (n vA vB : Vec2) (a b : Object) :
    (bbBounce n vA vB a b).2.isStatic = b.isStatic := by
  simp only [bbBounce]
  split_ifs <;> rfl

theorem bbBounce_fst_static (n vA vB : Vec2) (a b : Object)
    (ha : a.isStatic = true) : (bbBounce n vA vB a b).1 = a := by
  simp only [bbBounce]
  split_ifs <;> simp [ha]

theorem bbBounce_snd_static (n vA vB : Vec2) (a b : Object)
    (hb : b.isStatic = true) : (bbBounce n vA vB a b).2 = b := by
  simp only [bbBounce]
  split_ifs <;> simp [hb]

theorem ResolveCircleCircle_fst_isStatic (sqrtf : ℚ → ℚ) (a b : Object) :
    (ResolveCircleCircle sqrtf a b).1.isStatic = a.isStatic := by
  rcases hA : a.GetCircleCollider with _ | rA <;>
    rcases hB : b.GetCircleCollider with _ | rB <;>
      simp only [ResolveCircleCircle, hA, hB]
  split_ifs
  · rw [ccBounce_fst_isStatic, ccCorrection_fst_isStatic]
  · rfl

theorem ResolveCircleCircle_snd_isStatic (sqrtf : ℚ → ℚ) (a b : Object) :
    (ResolveCircleCircle sqrtf a b).2.isStatic = b.isStatic := by
  rcases hA : a.GetCircleCollider with _ | rA <;>
    rcases hB : b.GetCircleCollider with _ | rB <;>
      simp only [ResolveCircleCircle, hA, hB]
  split_ifs
  · rw [ccBounce_snd_isStatic, ccCorrection_snd_isStatic]
  · rfl

theorem ResolveCircleCircle_fst_static (sqrtf : ℚ → ℚ) (a b : Object)
    (ha : a.isStatic = true) : (ResolveCircleCircle sqrtf a b).1 = a := by
  rcases hA : a.GetCircleCollider with _ | rA <;>
    rcases hB : b.GetCircleCollider with _ | rB <;>
      simp only [ResolveCircleCircle, hA, hB]
  split_ifs
  · rw [ccCorrection_fst_static _ _ _ _ ha]
    exact ccBounce_fst_static _ _ _ _ _ ha
  · rfl

theorem ResolveCircleCircle_snd_static (sqrtf : ℚ → ℚ) (a b : Object)
    (hb : b.isStatic = true) : (ResolveCircleCircle sqrtf a b).2 = b := by
  rcases hA : a.GetCircleCollider with _ | rA <;>
    rcases hB : b.GetCircleCollider with _ | rB <;>
      simp only [ResolveCircleCircle, hA, hB]
  split_ifs
  · rw [ccCorrection_snd_static _ _ _ _ hb]
    exact ccBounce_snd_static _ _ _ _ _ hb
  · rfl

theorem ResolveCircleAABB_fst_isStatic (sqrtf : ℚ → ℚ) (circle box : Object) :
    (ResolveCircleAABB sqrtf circle box).1.isStatic = circle.isStatic := by
  rcases hA : circle.GetCircleCollider with _ | radius <;>
    rcases hB : box.GetAABBCollider with _ | he <;>
      simp only [ResolveCircleAABB, hA, hB]
  split_ifs
  · rw [cabBounce_isStatic, cabCorrection_fst_isStatic]
  · rfl

theorem ResolveCircleAABB_snd_isStatic (sqrtf : ℚ → ℚ) (circle box : Object) :
    (ResolveCircleAABB sqrtf circle box).2.isStatic = box.isStatic := by
  rcases hA : circle.GetCircleCollider with _ | radius <;>
    rcases hB : box.GetAABBCollider with _ | he <;>
      simp only [ResolveCircleAABB, hA, hB]
  split_ifs
  · rw [cabCorrection_snd_isStatic]
  · rfl

theorem ResolveCircleAABB_fst_static (sqrtf : ℚ → ℚ) (circle box : Object)
    (hc : circle.isStatic = true) : (ResolveCircleAABB sqrtf circle box).1 = circle := by
  rcases hA : circle.GetCircleCollider with _ | radius <;>
    rcases hB : box.GetAABBCollider with _ | he <;>
      simp only [ResolveCircleAABB, hA, hB]
  split_ifs
  · rw [cabCorrection_fst_static _ _ _ _ hc]
    exact cabBounce_static _ _ _ _ hc
  · rfl

theorem ResolveCircleAABB_snd_static (sqrtf : ℚ → ℚ) (circle box : Object)
    (hb : box.isStatic = true) : (ResolveCircleAABB sqrtf circle box).2 = box := by
  rcases hA : circle.GetCircleCollider with _ | radius <;>
    rcases hB : box.GetAABBCollider with _ | he <;>
      simp only [ResolveCircleAABB, hA, hB]
  split_ifs
  · rw [cabCorrection_snd_static _ _ _ _ hb]
  · rfl

theorem ResolveAABBAABB_fst_isStatic (a b : Object) :
    (ResolveAABBAABB a b).1.isStatic = a.isStatic := by
  rcases hA : a.GetAABBCollider with _ | heA <;>
    rcases hB : b.GetAABBCollider with _ | heB <;>
      simp only [ResolveAABBAABB, hA, hB]
  split_ifs
  · rfl
  · rfl
  · rw [bbBounce_fst_isStatic, bbCorrection_fst_isStatic]

theorem ResolveAABBAABB_snd_isStatic (a b : Object) :
    (ResolveAABBAABB a b).2.isStatic = b.isStatic := by
  rcases hA : a.GetAABBCollider with _ | heA <;>
    rcases hB : b.GetAABBCollider with _ | heB <;>
      simp only [ResolveAABBAABB, hA, hB]
  split_ifs
  · rfl
  · rfl
  · rw [bbBounce_snd_isStatic, bbCorrection_snd_isStatic]

theorem ResolveAABBAABB_fst_static (a b : Object)
    (ha : a.isStatic = true) : (ResolveAABBAABB a b).1 = a := by
  rcases hA : a.GetAABBCollider with _ | heA <;>
    rcases hB : b.GetAABBCollider with _ | heB <;>
      simp only [ResolveAABBAABB, hA, hB]
  split_ifs
  · rfl
  · rfl
  · rw [bbCorrection_fst_static _ _ _ _ ha]
    exact bbBounce_fst_static _ _ _ _ _ ha

theorem ResolveAABBAABB_snd_static (a b : Object)
    (hb : b.isStatic = true) : (ResolveAABBAABB a b).2 = b := by
  rcases hA : a.GetAABBCollider with _ | heA <;>
    rcases hB : b.GetAABBCollider with _ | heB <;>
      simp only [ResolveAABBAABB, hA, hB]
  split_ifs
  · rfl
  · rfl
  · rw [bbCorrection_snd_static _ _ _ _ hb]
    exact bbBounce_snd_static _ _ _ _ _ hb

theorem ResolveCollision_fst_isStatic (sqrtf : ℚ → ℚ) (a b : Object) :
    (ResolveCollision sqrtf a b).1.isStatic = a.isStatic := by
  rcases hA : a.collider with _ | (rA | heA) <;>
    rcases hB : b.collider with _ | (rB | heB) <;>
      simp only [ResolveCollision, hA, hB]
  · exact ResolveCircleCircle_fst_isStatic sqrtf a b
  · exact ResolveCircleAABB_fst_isStatic sqrtf a b
  · exact ResolveCircleAABB_snd_isStatic sqrtf b a
  · exact ResolveAABBAABB_fst_isStatic a b

theorem ResolveCollision_snd_isStatic (sqrtf : ℚ → ℚ) (a b : Object) :
    (ResolveCollision sqrtf a b).2.isStatic = b.isStatic := by
  rcases hA : a.collider with _ | (rA | heA) <;>
    rcases hB : b.collider with _ | (rB | heB) <;>
      simp only [ResolveCollision, hA, hB]
  · exact ResolveCircleCircle_snd_isStatic sqrtf a b
  · exact ResolveCircleAABB_snd_isStatic sqrtf a b
  · exact ResolveCircleAABB_fst_isStatic sqrtf b a
  · exact ResolveAABBAABB_snd_isStatic a b

theorem ResolveCollision_fst_static (sqrtf : ℚ → ℚ) (a b : Object)
    (ha : a.isStatic = true) : (ResolveCollision sqrtf a b).1 = a := by
  rcases hA : a.collider with _ | (rA | heA) <;>
    rcases hB : b.collider with _ | (rB | heB) <;>
      simp only [ResolveCollision, hA, hB]
  · exact ResolveCircleCircle_fst_static sqrtf a b ha
  · exact ResolveCircleAABB_fst_static sqrtf a b ha
  · exact ResolveCircleAABB_snd_static sqrtf b a ha
  · exact ResolveAABBAABB_fst_static a b ha

theorem ResolveCollision_snd_static (sqrtf : ℚ → ℚ) (a b : Object)
    (hb : b.isStatic = true) : (ResolveCollision sqrtf a b).2 = b := by
  rcases hA : a.collider with _ | (rA | heA) <;>
    rcases hB : b.collider with _ | (rB | heB) <;>
      simp only [ResolveCollision, hA, hB]
  · exact ResolveCircleCircle_snd_static sqrtf a b hb
  · exact ResolveCircleAABB_snd_static sqrtf a b hb
  · exact ResolveCircleAABB_fst_static sqrtf b a hb
  · exact ResolveAABBAABB_snd_static a b hb

theorem collidePair_staticSame (sqrtf : ℚ → ℚ) (h : ℕ → Object) (p : ℕ × ℕ) :
    staticSame h (collidePair sqrtf h p) := by
  simp only [collidePair]
  split_ifs with h1 h2
  · exact staticSame_refl h
  · exact staticSame_refl h
  · apply staticSame_write2
    · exact ResolveCollision_fst_isStatic sqrtf _ _
    · intro hs
      rw [ResolveCollision_fst_static sqrtf _ _ hs]
      exact ⟨rfl, rfl⟩
    · exact ResolveCollision_snd_isStatic sqrtf _ _
    · intro hs
      rw [ResolveCollision_snd_static sqrtf _ _ hs]
      exact ⟨rfl, rfl⟩

theorem collideFold_staticSame (sqrtf : ℚ → ℚ) (ps : List (ℕ × ℕ)) :
    ∀ (h0 h : ℕ → Object), staticSame h0 h →
      staticSame h0 (ps.foldl (collidePair sqrtf) h) := by
  induction ps with
  | nil => intro h0 h hss; exact hss
  | cons p t ih =>
      intro h0 h hss
      rw [List.foldl_cons]
      exact ih h0 _ (staticSame_trans hss (collidePair_staticSame sqrtf h p))

theorem stepWorld_constraints (sqrtf : ℚ → ℚ) (dt : ℚ) (w : World) :
    (stepWorld sqrtf dt w).constraints = w.constraints := rfl

theorem stepWorld_objects (sqrtf : ℚ → ℚ) (dt : ℚ) (w : World) :
    (stepWorld sqrtf dt w).objects = w.objects := rfl

theorem stepWorld_staticSame (sqrtf : ℚ → ℚ) (dt : ℚ) (w : World)
    (hsafe : ∀ c ∈ w.constraints, safeConstraint w.heap c.2 = true) :
    staticSame w.heap (stepWorld sqrtf dt w).heap := by
  have s1 : staticSame w.heap (gravityPhase w).heap :=
    mapHeap_staticSame _ (objGravity_isStatic _) (objGravity_static _) _ _ _
      (staticSame_refl _)
  have s2 : staticSame w.heap (integratePhase dt (gravityPhase w)).heap :=
    mapHeap_staticSame _ (objIntegrate_isStatic _) (objIntegrate_static _) _ _ _ s1
  have s3 : staticSame w.heap
      (World.SolveAllConstraints sqrtf (integratePhase dt (gravityPhase w))).heap :=
    solveIter_staticSame sqrtf _ _ _ _ s2 hsafe
  exact collideFold_staticSame sqrtf _ _ _ s3

theorem stepIter_staticSame (sqrtf : ℚ → ℚ) (dt : ℚ) (n : ℕ) :
    ∀ (w : World), (∀ c ∈ w.constraints, safeConstraint w.heap c.2 = true) →
      staticSame w.heap (((stepWorld sqrtf dt)^[n]) w).heap := by
  induction n with
  | zero => intro w _; exact staticSame_refl _
  | succ n ih =>
      intro w hsafe
      rw [Function.iterate_succ_apply]
      have h1 := stepWorld_staticSame sqrtf dt w hsafe
      have hsafe2 : ∀ c ∈ (stepWorld sqrtf dt w).constraints,
          safeConstraint (stepWorld sqrtf dt w).heap c.2 = true := by
        intro c hc
        rw [stepWorld_constraints] at hc
        rw [safeConstraint_congr h1]
        exact hsafe c hc
      exact staticSame_trans h1 (ih _ hsafe2)

/-- C1 (amended): a static body is never moved by integration or collision
resolution, and not by constraint solving either, provided no Pin constraint
targets a static body and no Distance or Spring constraint links two static
bodies (`safeConstraint`): under that proviso its position and previousPosition
are exactly unchanged across any number of `Step` calls.  (Without the proviso
the claim is false: `PinConstraint::Solve` moves its body unconditionally, and a
Distance/Spring solve with both endpoints static moves the second body.) -/
theorem claim_C1_static_never_moves_amended (sqrtf : ℚ → ℚ) (dt : ℚ) (w : World)
    (n i : ℕ) (hs : (w.heap i).isStatic = true)
    (hsafe : ∀ c ∈ w.constraints, safeConstraint w.heap c.2 = true) :
    (((stepWorld sqrtf dt)^[n] w).heap i).position = (w.heap i).position
    ∧ (((stepWorld sqrtf dt)^[n] w).heap i).oldPosition = (w.heap i).oldPosition :=
  (stepIter_staticSame sqrtf dt n w hsafe i).2 hs

/-! Mass noninterference: `Step` never reads `mass`, so erasing masses commutes
with every operation of the pipeline. -/

theorem stripHeap_isStatic (h : ℕ → Object) (i : ℕ) :
    (stripHeap h i).isStatic = (h i).isStatic := rfl

theorem stripHeap_collider (h : ℕ → Object) (i : ℕ) :
    (stripHeap h i).collider = (h i).collider := rfl

theorem stripMass_objGravity (g : Vec2) (o : Object) :
    stripMass (objGravity g o) = objGravity g (stripMass o) := by
  rcases o with ⟨p, op, acc, m, bn, st, col⟩
  cases st <;> rfl

theorem stripMass_objIntegrate (dt : ℚ) (o : Object) :
    stripMass (objIntegrate dt o) = objIntegrate dt (stripMass o) := by
  rcases o with ⟨p, op, acc, m, bn, st, col⟩
  cases st <;> rfl

theorem stripMass_pinSolve (anchor : Vec2) (o : Object) :
    stripMass (pinSolve anchor o) = pinSolve anchor (stripMass o) := by
  rcases o with ⟨p, op, acc, m, bn, st, col⟩
  rfl

theorem stripMass_distanceSolve_fst (sqrtf : ℚ → ℚ) (rl st : ℚ) (a b : Object) :
    stripMass (distanceSolve sqrtf rl st a b).1
      = (distanceSolve sqrtf rl st (stripMass a) (stripMass b)).1 := by
  rcases a with ⟨pa, opa, aa, ma, bna, sa, ca⟩
  rcases b with ⟨pb, opb, ab, mb, bnb, sb, cb⟩
  simp only [distanceSolve, stripMass]
  split_ifs <;> rfl

theorem stripMass_distanceSolve_snd (sqrtf : ℚ → ℚ) (rl st : ℚ) (a b : Object) :
    stripMass (distanceSolve sqrtf rl st a b).2
      = (distanceSolve sqrtf rl st (stripMass a) (stripMass b)).2 := by
  rcases a with ⟨pa, opa, aa, ma, bna, sa, ca⟩
  rcases b with ⟨pb, opb, ab, mb, bnb, sb, cb⟩
  simp only [distanceSolve, stripMass]
  split_ifs <;> rfl

theorem stripMass_springSolve_fst (sqrtf : ℚ → ℚ) (rl st dp : ℚ) (a b : Object) :
    stripMass (springSolve sqrtf rl st dp a b).1
      = (springSolve sqrtf rl st dp (stripMass a) (stripMass b)).1 := by
  rcases a with ⟨pa, opa, aa, ma, bna, sa, ca⟩
  rcases b with ⟨pb, opb, ab, mb, bnb, sb, cb⟩
  simp only [springSolve, stripMass]
  split_ifs <;> rfl

theorem stripMass_springSolve_snd (sqrtf : ℚ → ℚ) (rl st dp : ℚ) (a b : Object) :
    stripMass (springSolve sqrtf rl st dp a b).2
      = (springSolve sqrtf rl st dp (stripMass a) (stripMass b)).2 := by
  rcases a with ⟨pa, opa, aa, ma, bna, sa, ca⟩
  rcases b with ⟨pb, opb, ab, mb, bnb, sb, cb⟩
  simp only [springSolve, stripMass]
  split_ifs <;> rfl

theorem stripMass_ResolveCircleCircle_fst (sqrtf : ℚ → ℚ) (a b : Object) :
    stripMass (ResolveCircleCircle sqrtf a b).1
      = (ResolveCircleCircle sqrtf (stripMass a) (stripMass b)).1 := by
  rcases a with ⟨pa, opa, aa, ma, bna, sa, ca⟩
  rcases b with ⟨pb, opb, ab, mb, bnb, sb, cb⟩
  rcases ca with _ | (rA | heA) <;> rcases cb with _ | (rB | heB) <;>
    simp only [ResolveCircleCircle, Object.GetCircleCollider, stripMass,
      ccNormalPen, ccCorrection, ccBounce] <;>
    split_ifs <;> rfl

theorem stripMass_ResolveCircleCircle_snd (sqrtf : ℚ → ℚ) (a b : Object) :
    stripMass (ResolveCircleCircle sqrtf a b).2
      = (ResolveCircleCircle sqrtf (stripMass a) (stripMass b)).2 := by
  rcases a with ⟨pa, opa, aa, ma, bna, sa, ca⟩
  rcases b with ⟨pb, opb, ab, mb, bnb, sb, cb⟩
  rcases ca with _ | (rA | heA) <;> rcases cb with _ | (rB | heB) <;>
    simp only [ResolveCircleCircle, Object.GetCircleCollider, stripMass,
      ccNormalPen, ccCorrection, ccBounce] <;>
    split_ifs <;> rfl

theorem stripMass_ResolveCircleAABB_fst (sqrtf : ℚ → ℚ) (circle box : Object) :
    stripMass (ResolveCircleAABB sqrtf circle box).1
      = (ResolveCircleAABB sqrtf (stripMass circle) (stripMass box)).1 := by
  rcases circle with ⟨pa, opa, aa, ma, bna, sa, ca⟩
  rcases box with ⟨pb, opb, ab, mb, bnb, sb, cb⟩
  rcases ca with _ | (rA | heA) <;> rcases cb with _ | (rB | heB) <;>
    simp only [ResolveCircleAABB, Object.GetCircleCollider, Object.GetAABBCollider,
      stripMass, cabClosestPoint, cabNormalPen, cabCorrection, cabBounce] <;>
    split_ifs <;> rfl

theorem stripMass_ResolveCircleAABB_snd (sqrtf : ℚ → ℚ) (circle box : Object) :
    stripMass (ResolveCircleAABB sqrtf circle box).2
      = (ResolveCircleAABB sqrtf (stripMass circle) (stripMass box)).2 := by
  rcases circle with ⟨pa, opa, aa, ma, bna, sa, ca⟩
  rcases box with ⟨pb, opb, ab, mb, bnb, sb, cb⟩
  rcases ca with _ | (rA | heA) <;> rcases cb with _ | (rB | heB) <;>
    simp only [ResolveCircleAABB, Object.GetCircleCollider, Object.GetAABBCollider,
      stripMass, cabClosestPoint, cabNormalPen, cabCorrection, cabBounce] <;>
    split_ifs <;> rfl

theorem stripMass_bbCorrection_fst (n : Vec2) (p : ℚ) (a b : Object) :
    stripMass (bbCorrection n p a b).1 = (bbCorrection n p (stripMass a) (stripMass b)).1 := by
  rcases a with ⟨pa, opa, aa, ma, bna, sa, ca⟩
  rcases b with ⟨pb, opb, ab, mb, bnb, sb, cb⟩
  simp only [bbCorrection, stripMass]
  split_ifs <;> rfl

theorem stripMass_bbCorrection_snd (n : Vec2) (p : ℚ) (a b : Object) :
    stripMass (bbCorrection n p a b).2 = (bbCorrection n p (stripMass a) (stripMass b)).2 := by
  rcases a with ⟨pa, opa, aa, ma, bna, sa, ca⟩
  rcases b with ⟨pb, opb, ab, mb, bnb, sb, cb⟩
  simp only [bbCorrection, stripMass]
  split_ifs <;> rfl

theorem stripMass_bbBounce_fst (n vA vB : Vec2) (a b : Object) :
    stripMass (bbBounce n vA vB a b).1 = (bbBounce n vA vB (stripMass a) (stripMass b)).1 := by
  rcases a with ⟨pa, opa, aa, ma, bna, sa, ca⟩
  rcases b with ⟨pb, opb, ab, mb, bnb, sb, cb⟩
  simp only [bbBounce, stripMass]
  split_ifs <;> rfl

theorem stripMass_bbBounce_snd (n vA vB : Vec2) (a b : Object) :
    stripMass (bbBounce n vA vB a b).2 = (bbBounce n vA vB (stripMass a) (stripMass b)).2 := by
  rcases a with ⟨pa, opa, aa, ma, bna, sa, ca⟩
  rcases b with ⟨pb, opb, ab, mb, bnb, sb, cb⟩
  simp only [bbBounce, stripMass]
  split_ifs <;> rfl

theorem stripMass_mk (p op acc : Vec2) (m bn : ℚ) (st : Bool) (col : Option Collider) :
    stripMass (Object.mk p op acc m bn st col) = Object.mk p op acc 1 bn st col := rfl

theorem stripMass_ResolveAABBAABB_fst (a b : Object) :
    stripMass (ResolveAABBAABB a b).1
      = (ResolveAABBAABB (stripMass a) (stripMass b)).1 := by
  rcases a with ⟨pa, opa, aa, ma, bna, sa, ca⟩
  rcases b with ⟨pb, opb, ab, mb, bnb, sb, cb⟩
  rcases ca with _ | (rA | heA) <;> rcases cb with _ | (rB | heB) <;>
    simp only [ResolveAABBAABB, Object.GetAABBCollider, stripMass_mk] <;>
    try rfl
  split_ifs <;> try rfl
  rw [stripMass_bbBounce_fst, stripMass_bbCorrection_fst, stripMass_bbCorrection_snd]
  rfl

theorem stripMass_ResolveAABBAABB_snd (a b : Object) :
    stripMass (ResolveAABBAABB a b).2
      = (ResolveAABBAABB (stripMass a) (stripMass b)).2 := by
  rcases a with ⟨pa, opa, aa, ma, bna, sa, ca⟩
  rcases b with ⟨pb, opb, ab, mb, bnb, sb, cb⟩
  rcases ca with _ | (rA | heA) <;> rcases cb with _ | (rB | heB) <;>
    simp only [ResolveAABBAABB, Object.GetAABBCollider, stripMass_mk] <;>
    try rfl
  split_ifs <;> try rfl
  rw [stripMass_bbBounce_snd, stripMass_bbCorrection_fst, stripMass_bbCorrection_snd]
  rfl

theorem stripMass_collider_eq (o : Object) : (stripMass o).collider = o.collider := rfl

theorem stripMass_ResolveCollision_fst (sqrtf : ℚ → ℚ) (a b : Object) :
    stripMass (ResolveCollision sqrtf a b).1
      = (ResolveCollision sqrtf (stripMass a) (stripMass b)).1 := by
  rcases hA : a.collider with _ | (rA | heA) <;>
    rcases hB : b.collider with _ | (rB | heB) <;>
      simp only [ResolveCollision, stripMass_collider_eq, hA, hB] <;> try rfl
  · exact stripMass_ResolveCircleCircle_fst sqrtf a b
  · exact stripMass_ResolveCircleAABB_fst sqrtf a b
  · exact stripMass_ResolveCircleAABB_snd sqrtf b a
  · exact stripMass_ResolveAABBAABB_fst a b

theorem stripMass_ResolveCollision_snd (sqrtf : ℚ → ℚ) (a b : Object) :
    stripMass (ResolveCollision sqrtf a b).2
      = (ResolveCollision sqrtf (stripMass a) (stripMass b)).2 := by
  rcases hA : a.collider with _ | (rA | heA) <;>
    rcases hB : b.collider with _ | (rB | heB) <;>
      simp only [ResolveCollision, stripMass_collider_eq, hA, hB] <;> try rfl
  · exact stripMass_ResolveCircleCircle_snd sqrtf a b
  · exact stripMass_ResolveCircleAABB_snd sqrtf a b
  · exact stripMass_ResolveCircleAABB_fst sqrtf b a
  · exact stripMass_ResolveAABBAABB_snd a b

theorem stripHeap_writeHeap (h : ℕ → Object) (i : ℕ) (v : Object) :
    stripHeap (writeHeap h i v) = writeHeap (stripHeap h) i (stripMass v) := by
  funext j
  simp only [stripHeap, writeHeap]
  split_ifs <;> rfl

theorem stripHeap_mapHeap (f : Object → Object)
    (hf : ∀ o, stripMass (f o) = f (stripMass o)) :
    ∀ (ids : List ℕ) (h : ℕ → Object),
      stripHeap (mapHeap f ids h) = mapHeap f ids (stripHeap h) := by
  intro ids
  induction ids with
  | nil => intro h; rfl
  | cons a t ih =>
      intro h
      rw [mapHeap_cons, mapHeap_cons, ih, stripHeap_writeHeap, hf]
      rfl

theorem stripHeap_solveConstraint (sqrtf : ℚ → ℚ) (h : ℕ → Object) (c : Constraint) :
    stripHeap (solveConstraint sqrtf h c) = solveConstraint sqrtf (stripHeap h) c := by
  cases c with
  | distance a b rl st =>
      simp only [solveConstraint]
      rw [stripHeap_writeHeap, stripHeap_writeHeap, stripMass_distanceSolve_fst,
        stripMass_distanceSolve_snd]
      rfl
  | spring a b rl st dp =>
      simp only [solveConstraint]
      rw [stripHeap_writeHeap, stripHeap_writeHeap, stripMass_springSolve_fst,
        stripMass_springSolve_snd]
      rfl
  | pin i anchor =>
      simp only [solveConstraint]
      rw [stripHeap_writeHeap, stripMass_pinSolve]
      rfl

theorem stripHeap_solveOnce (sqrtf : ℚ → ℚ) (cs : List (ℕ × Constraint)) :
    ∀ (h : ℕ → Object),
      stripHeap (solveConstraintsOnce sqrtf cs h)
        = solveConstraintsOnce sqrtf cs (stripHeap h) := by
  induction cs with
  | nil => intro h; rfl
  | cons c t ih =>
      intro h
      rw [solveConstraintsOnce_cons, solveConstraintsOnce_cons, ih,
        stripHeap_solveConstraint]

theorem stripHeap_solveIter (sqrtf : ℚ → ℚ) (cs : List (ℕ × Constraint)) (n : ℕ) :
    ∀ (h : ℕ → Object),
      stripHeap ((solveConstraintsOnce sqrtf cs)^[n] h)
        = (solveConstraintsOnce sqrtf cs)^[n] (stripHeap h) := by
  induction n with
  | zero => intro h; rfl
  | succ n ih =>
      intro h
      rw [Function.iterate_succ_apply, Function.iterate_succ_apply, ih,
        stripHeap_solveOnce]

theorem stripHeap_collidePair (sqrtf : ℚ → ℚ) (h : ℕ → Object) (p : ℕ × ℕ) :
    stripHeap (collidePair sqrtf h p) = collidePair sqrtf (stripHeap h) p := by
  simp only [collidePair, stripHeap_isStatic, stripHeap_collider]
  split_ifs
  · rfl
  · rfl
  · rw [stripHeap_writeHeap, stripHeap_writeHeap, stripMass_ResolveCollision_fst,
      stripMass_ResolveCollision_snd]
    rfl

theorem stripHeap_collideFold (sqrtf : ℚ → ℚ) (ps : List (ℕ × ℕ)) :
    ∀ (h : ℕ → Object),
      stripHeap (ps.foldl (collidePair sqrtf) h)
        = ps.foldl (collidePair sqrtf) (stripHeap h) := by
  induction ps with
  | nil => intro h; rfl
  | cons p t ih =>
      intro h
      rw [List.foldl_cons, List.foldl_cons, ih, stripHeap_collidePair]

theorem stripWorld_stepWorld (sqrtf : ℚ → ℚ) (dt : ℚ) (w : World) :
    stripWorld (stepWorld sqrtf dt w) = stepWorld sqrtf dt (stripWorld w) := by
  rcases w with ⟨h, objs, cs, g, it⟩
  simp only [stripWorld, stepWorld, collisionPhase, World.SolveAllConstraints,
    integratePhase, gravityPhase]
  congr 1
  rw [stripHeap_collideFold, stripHeap_solveIter,
    stripHeap_mapHeap (objIntegrate dt) (stripMass_objIntegrate dt),
    stripHeap_mapHeap (objGravity g) (stripMass_objGravity g)]

/-- C9: two-run noninterference on mass — `Step` never reads any body's mass, so
two worlds identical except for mass values produce identical positions and
previous positions at every address after any number of `Step` calls (every
constraint and collision correction is distributed by static-ness alone, never
weighted by mass). -/
theorem claim_C9_mass_noninterference (sqrtf : ℚ → ℚ) (dt : ℚ) (n : ℕ)
    (w1 w2 : World) (hobj : w1.objects = w2.objects)
    (hcon : w1.constraints = w2.constraints) (hg : w1.gravity = w2.gravity)
    (hit : w1.constraintIterations = w2.constraintIterations)
    (hheap : ∀ i, stripMass (w1.heap i) = stripMass (w2.heap i)) :
    ∀ i, (((stepWorld sqrtf dt)^[n] w1).heap i).position
          = (((stepWorld sqrtf dt)^[n] w2).heap i).position
      ∧ (((stepWorld sqrtf dt)^[n] w1).heap i).oldPosition
          = (((stepWorld sqrtf dt)^[n] w2).heap i).oldPosition := by
  have hw : stripWorld w1 = stripWorld w2 := by
    rcases w1 with ⟨h1, o1, c1, g1, i1⟩
    rcases w2 with ⟨h2, o2, c2, g2, i2⟩
    simp only [stripWorld, World.mk.injEq] at *
    exact ⟨funext hheap, hobj, hcon, hg, hit⟩
  have hcomm : ∀ (m : ℕ) (v : World),
      stripWorld ((stepWorld sqrtf dt)^[m] v) = (stepWorld sqrtf dt)^[m] (stripWorld v) := by
    intro m
    induction m with
    | zero => intro v; rfl
    | succ m ih =>
        intro v
        rw [Function.iterate_succ_apply, Function.iterate_succ_apply, ih,
          stripWorld_stepWorld]
  have hres : stripWorld ((stepWorld sqrtf dt)^[n] w1)
      = stripWorld ((stepWorld sqrtf dt)^[n] w2) := by
    rw [hcomm, hcomm, hw]
  intro i
  have hhi : stripMass (((stepWorld sqrtf dt)^[n] w1).heap i)
      = stripMass (((stepWorld sqrtf dt)^[n] w2).heap i) :=
    congrArg (fun v => v.heap i) hres
  have hp := congrArg Object.position hhi
  have ho := congrArg Object.oldPosition hhi
  exact ⟨hp, ho⟩

section ConcreteEvaluations

attribute [local semireducible] Rat.add Rat.mul Rat.sub Rat.inv

/-- C1 counterexample: the world whose only body is static but pinned away from
its position.  One `Step` moves the static body from (0,0) to the anchor (1,0):
constraint solving does mutate a static body's position, refuting the claim as
stated. -/
theorem claim_C1_counterexample :
    (pinStaticWorld.heap 0).isStatic = true
    ∧ 0 ∈ pinStaticWorld.objects
    ∧ ((stepWorld sqrt0 1 pinStaticWorld).heap 0).position ≠ (pinStaticWorld.heap 0).position := by
  refine ⟨rfl, by decide, by decide⟩

/-- Witness for C1 (amended): a world with a static body, a dynamic body and a
distance constraint between them satisfies the proviso, and the static body is
untouched by two steps. -/
theorem claim_C1_witness :
    (((stepWorld sqrt0 1)^[2] safeStaticWorld).heap 0).position
        = (safeStaticWorld.heap 0).position
    ∧ (((stepWorld sqrt0 1)^[2] safeStaticWorld).heap 0).oldPosition
        = (safeStaticWorld.heap 0).oldPosition :=
  claim_C1_static_never_moves_amended sqrt0 1 safeStaticWorld 2 0 (by decide) (by decide)

/-- Witness for C2: in `intWorld`, after the gravity and integration phases with
`dt = 1`, the dynamic body at (3,4) with previous position (1,2) ends at
(3,4) + (2,2) + (0,1000) = (5,1006) with previous position (3,4) and
acceleration = gravity, while the static body is untouched. -/
theorem claim_C2_witness :
    (integratePhase 1 (gravityPhase intWorld)).heap 0
      = ⟨⟨5, 1006⟩, ⟨3, 4⟩, ⟨0, 1000⟩, 1, 7/10, false, none⟩
    ∧ (integratePhase 1 (gravityPhase intWorld)).heap 1 = intWorld.heap 1 := by
  have h0 := (claim_C2_integration_contract sqrt0 1 intWorld 0 (by decide) (by decide)).2
  have h1 := (claim_C2_integration_contract sqrt0 1 intWorld 1 (by decide) (by decide)).2
  constructor
  · rw [h0]; decide
  · rw [h1]; decide

/-- Witness for C3: concrete colliding pairs.  Circle-circle (unit circles at
(0,0) and (1,0), penetration 1): each body moves by half, A to (-1/2,0).
Circle-box (circle of radius 2 centered inside the static box): the circle moves
by the full penetration 3 along (0,-1), to (0,-3).  Box-box (unit boxes at (0,0)
and (1,0), penetration 1): A moves by half, to (-1/2,0). -/
theorem claim_C3_witness :
    (ResolveCircleCircle sqrt1 ccAObj ccBObj).1.position = ⟨-(1/2), 0⟩
    ∧ (ResolveCircleAABB sqrt1 cabCircleObj cabBoxObj).1.position = ⟨0, -3⟩
    ∧ (ResolveAABBAABB bbAObj bbBObj).1.position = ⟨-(1/2), 0⟩ := by
  have h := claim_C3_full_correction_asymmetry sqrt1 ccAObj ccBObj cabCircleObj
    cabBoxObj bbAObj bbBObj 1 1 2 ⟨10, 4⟩ ⟨1, 1⟩ ⟨1, 1⟩
  refine ⟨?_, ?_, ?_⟩
  · have h1 := (h.1 (by decide) (by decide) (by decide)).1 (by decide)
    rw [h1]; decide
  · have h2 := (h.2.1 (by decide) (by decide) (by decide)).1 (by decide)
    rw [h2]; decide
  · have h3 := (h.2.2 (by decide) (by decide) (by decide) (by decide)).1 (by decide)
    rw [h3]; decide

/-- C5 counterexample: with BOTH bodies static (so not "exactly one static") at
(0,0) and (3,0), rest length 1 and stiffness 1, the code moves objB by the full
correction to (1,0) and leaves objA at (0,0) — not the 50/50 split the claim's
"otherwise" case prescribes (which would be (1,0) and (2,0)). -/
theorem claim_C5_counterexample :
    cxAObj.isStatic = true ∧ cxBObj.isStatic = true
    ∧ (distanceSolve sqrt9 1 1 cxAObj cxBObj).1.position = ⟨0, 0⟩
    ∧ (distanceSolve sqrt9 1 1 cxAObj cxBObj).2.position = ⟨1, 0⟩
    ∧ ¬((distanceSolve sqrt9 1 1 cxAObj cxBObj).1.position
          = cxAObj.position + distCorrection sqrt9 1 1 cxAObj cxBObj * (1/2 : ℚ)
        ∧ (distanceSolve sqrt9 1 1 cxAObj cxBObj).2.position
          = cxBObj.position - distCorrection sqrt9 1 1 cxAObj cxBObj * (1/2 : ℚ)) := by
  decide

/-- Witness for C5 (amended): the epsilon branch returns both bodies unchanged
(under an interpretation of sqrt returning 0), and for two dynamic bodies at
(0,0) and (3,0) with rest length 1, stiffness 1 and exact sqrt, each absorbs
half of the correction (2,0): A ends at (1,0), B at (2,0). -/
theorem claim_C5_witness :
    distanceSolve sqrt0 1 1 dynAObj dynBObj = (dynAObj, dynBObj)
    ∧ (distanceSolve sqrt9 1 1 dynAObj dynBObj).1.position = ⟨1, 0⟩
    ∧ (distanceSolve sqrt9 1 1 dynAObj dynBObj).2.position = ⟨2, 0⟩ := by
  refine ⟨(claim_C5_distance_solve sqrt0 1 1 dynAObj dynBObj).1 (by decide), ?_, ?_⟩
  · have h := ((claim_C5_distance_solve sqrt9 1 1 dynAObj dynBObj).2 (by decide)).2.2.2.2
      (by decide) (by decide)
    rw [h.1]; decide
  · have h := ((claim_C5_distance_solve sqrt9 1 1 dynAObj dynBObj).2 (by decide)).2.2.2.2
      (by decide) (by decide)
    rw [h.2]; decide

/-- Witness for C6: pinning body 0 of a constant heap to (5,6) places it there;
after `SetAnchor` to (7,8) the next solve places it there; body 1 is untouched. -/
theorem claim_C6_witness :
    ((solveConstraint sqrt0 (fun _ => dynAObj) (.pin 0 ⟨5, 6⟩)) 0).position = ⟨5, 6⟩
    ∧ ((solveConstraint sqrt0 (fun _ => dynAObj)
        ((Constraint.pin 0 ⟨5, 6⟩).SetAnchor ⟨7, 8⟩)) 0).position = ⟨7, 8⟩
    ∧ solveConstraint sqrt0 (fun _ => dynAObj) (.pin 0 ⟨5, 6⟩) 1 = dynAObj := by
  have h := claim_C6_pin_sets_anchor sqrt0 (fun _ => dynAObj) 0 ⟨5, 6⟩ ⟨7, 8⟩
  exact ⟨h.1, h.2.1, h.2.2 1 (by decide)⟩

/-- Witness for C7: setting velocity (2,3) with dt = 2 and reading it back with
dt = 2 returns (2,3); reading with dt = -1 returns zero. -/
theorem claim_C7_witness :
    (Object.SetVelocity dynAObj ⟨2, 3⟩ 2).GetVelocity 2 = ⟨2, 3⟩
    ∧ dynAObj.GetVelocity (-1) = Vec2.zero :=
  ⟨(claim_C7_velocity_round_trip dynAObj ⟨2, 3⟩ 2).1 (by decide),
   (claim_C7_velocity_round_trip dynAObj ⟨2, 3⟩ (-1)).2 (by decide)⟩

/-- Witness for C8: removing the unregistered body 5 or the unregistered
constraint 9 from `safeStaticWorld` is a no-op, and removing body 0 leaves the
count of body 1 unchanged. -/
theorem claim_C8_witness :
    safeStaticWorld.RemoveObject 5 = safeStaticWorld
    ∧ safeStaticWorld.RemoveConstraint 9 = safeStaticWorld
    ∧ (safeStaticWorld.RemoveObject 0).objects.count 1
        = safeStaticWorld.objects.count 1 := by
  have h := claim_C8_removal_no_op safeStaticWorld 5 9
  have h0 := claim_C8_removal_no_op safeStaticWorld 0 9
  exact ⟨h.1 (by decide), h.2.2.2.2.2.1 (by decide), h0.2.2.2.2.1 1 (by decide)⟩

/-- Witness for C9: two one-body worlds whose bodies differ only in mass (1
versus 5) have identical positions after a step. -/
theorem claim_C9_witness :
    (((stepWorld sqrt0 1)^[1] massWorld1).heap 0).position
      = (((stepWorld sqrt0 1)^[1] massWorld2).heap 0).position :=
  (claim_C9_mass_noninterference sqrt0 1 1 massWorld1 massWorld2 rfl rfl rfl rfl
    (fun _ => rfl) 0).1

end ConcreteEvaluations
